import Mathlib

/-!
# mcp-grpc-transport: message-model translation

A shallow embedding of the translation code of `rustycl0ck/mcp-grpc-transport`:

* `pkg/metoro-io-transport/grpc/grpc.go`: `GetMessageType`, `ToBaseJsonRpcMessage`,
  `ToGenericRpcMessage`, `RawMessageToStruct`;
* `pkg/mark3labs-transport/grpc/grpc.go`: `ToJsonRpcMessage`, `FromJsonRpcMessage`,
  `genericStruct`, `marshalToRawMessage`, and the session loop `GrpcServer.Transport`;
* `cmd/client/client.go`: `getId`, `parseResp`.

Go conventions used throughout:

* a Go function returning `(T, error)` becomes a function into `Go T`, an `Except` whose
  failure is either a returned `error` (with its text) or a run-time panic;
* a Go pointer that may be nil becomes an `Option`;
* Go's fixed-width integers are `Int`s, with an explicit wrap where the source narrows;
* calls into libraries (`encoding/json`, `protojson`, `structpb`) are parameters of the
  embedded functions, so every theorem holds for whatever those libraries compute.
-/

namespace McpGrpc

/-! ## Go results -/

/-- The two ways a Go call can fail to produce its value: it returns a non-nil `error`
(carrying the error text), or it panics at run time. -/
inductive Failure where
  | error (text : String)
  | panic (text : String)
  deriving DecidableEq, Repr

/-- The result of a Go call that returns `(T, error)`. -/
abbrev Go (α : Type) := Except Failure α

/-- Go's `fmt.Errorf` with an already formatted text. -/
def errorf {α : Type} (text : String) : Go α := Except.error (Failure.error text)

/-- A nil-pointer dereference. -/
def nilDeref {α : Type} : Go α :=
  Except.error (Failure.panic "invalid memory address or nil pointer dereference")

/-- Go's conversion `int32(x)`: the low 32 bits of `x`, read as a signed integer. -/
def toInt32 (x : Int) : Int := (x + 2 ^ 31) % 2 ^ 32 - 2 ^ 31

/-! ## The wire model (`pb`, package `pkg/protogen/jsonrpc`) -/

/-- The values of `structpb.Value`: null, number, string, boolean, nested bag, sequence. -/
inductive Value where
  | null
  | number (q : ℚ)
  | string (s : String)
  | bool (b : Bool)
  | struct (fields : List (String × Value))
  | list (items : List Value)

/-- The structured value bag `structpb.Struct`: its fields, keyed by name. -/
abbrev Struct := List (String × Value)

/-- A Go `map[string]interface{}` holding a decoded JSON object. -/
abbrev GoMap := List (String × Value)

namespace pb

/-- Modelled from the spec: the `oneof kind` of the generated type `pb.ID`, which is not
among the sources. Section 3 gives the identifier as a tagged union of string and integer;
the generated Go wrappers are `ID_Str` and `ID_Num`, and a nil `Kind` is the unset union. -/
inductive IDKind where
  | unset
  | ID_Str (Str : String)
  | ID_Num (Num : Int)
  deriving DecidableEq, Repr

/-- Modelled from the spec: the generated message `pb.ID`, holding the `Kind` union. -/
structure ID where
  Kind : IDKind := IDKind.unset
  deriving DecidableEq, Repr

/-- Modelled from the spec: the generated message `pb.JSONRPCError` of section 6,
`{code: int32, message: string, data: opaque}`. -/
structure JSONRPCError where
  Code : Int := 0
  Message : String := ""
  Data : Option Value := none

/-- Modelled from the spec: the generated message `pb.GenericJSONRPCMessage` of section 6.
`TypedId`, `Params`, `Result` and `Error` are pointers in Go. -/
structure GenericJSONRPCMessage where
  Jsonrpc : String := ""
  TypedId : Option ID := none
  Method : String := ""
  Params : Option Struct := none
  Result : Option Struct := none
  Error : Option JSONRPCError := none

/-- The generated getter `(*ID).GetKind`, which is nil-safe: a nil `*ID` has no kind. -/
def GetKind : Option ID → IDKind
  | none => IDKind.unset
  | some id => id.Kind

end pb

/-! ## The metoro-io host model (package `transport` of `metoro-io/mcp-golang`) -/

namespace transport

/-- The type `transport.BaseMessageType`, a Go string type. -/
abbrev BaseMessageType := String

def BaseMessageTypeJSONRPCRequestType : BaseMessageType := "request"
def BaseMessageTypeJSONRPCNotificationType : BaseMessageType := "notification"
def BaseMessageTypeJSONRPCResponseType : BaseMessageType := "response"
def BaseMessageTypeJSONRPCErrorType : BaseMessageType := "error"

/-- The struct `transport.BaseJSONRPCRequest`; `Id` is a `RequestId`, an `int64`, and
`Params` a `json.RawMessage`. -/
structure BaseJSONRPCRequest where
  Jsonrpc : String
  Id : Int
  Method : String
  Params : String

structure BaseJSONRPCNotification where
  Jsonrpc : String
  Method : String
  Params : String

structure BaseJSONRPCResponse where
  Jsonrpc : String
  Id : Int
  Result : String

/-- The struct `transport.BaseJSONRPCErrorInner`; `Code` is a Go `int`, `Data` an
`interface{}`. -/
structure BaseJSONRPCErrorInner where
  Code : Int
  Data : Option Value
  Message : String

structure BaseJSONRPCError where
  Jsonrpc : String
  Id : Int
  Error : BaseJSONRPCErrorInner

/-- The struct `transport.BaseJsonRpcMessage`: a type tag and one pointer per variant.
The Go field `Type` is `Type_` here, `Type` being reserved. -/
structure BaseJsonRpcMessage where
  Type_ : BaseMessageType := ""
  JsonRpcRequest : Option BaseJSONRPCRequest := none
  JsonRpcNotification : Option BaseJSONRPCNotification := none
  JsonRpcResponse : Option BaseJSONRPCResponse := none
  JsonRpcError : Option BaseJSONRPCError := none

end transport

/-! ## The mark3labs host model (package `mcp` of `mark3labs/mcp-go`) -/

namespace mcp

/-- The type `mcp.RequestId`, a wrapper of an `any`. `NewRequestId` stores what it is
given; the transport gives it the wire message's `*pb.ID`. -/
inductive RequestId where
  | nil
  | string (s : String)
  | int64 (n : Int)
  | typedId (id : Option pb.ID)
  deriving DecidableEq, Repr

def NewRequestId (id : Option pb.ID) : RequestId := RequestId.typedId id

/-- The struct `mcp.RequestParams`, of which the transport only sets `Meta`. -/
structure RequestParams where
  Meta : Option Struct := none

/-- The struct `mcp.Request`. -/
structure Request where
  Method : String
  Params : RequestParams := {}

/-- The struct `mcp.JSONRPCRequest`: it embeds `Request` and has a field `Params` of its
own, of type `any`. -/
structure JSONRPCRequest where
  JSONRPC : String
  ID : RequestId
  Params : Option Value
  Request : Request

/-- The struct `mcp.JSONRPCResponse`; `Result` is an `any`. -/
structure JSONRPCResponse where
  JSONRPC : String
  ID : RequestId
  Result : Option Value

/-- The anonymous struct of `mcp.JSONRPCError.Error`. -/
structure ErrorDetail where
  Code : Int
  Message : String
  Data : Option Value

/-- The struct `mcp.JSONRPCError`. -/
structure JSONRPCError where
  JSONRPC : String
  ID : RequestId
  Error : ErrorDetail

/-- The struct `mcp.NotificationParams`. -/
structure NotificationParams where
  Meta : Option GoMap := none
  AdditionalFields : Option GoMap := none

structure Notification where
  Method : String
  Params : NotificationParams := {}

/-- The struct `mcp.JSONRPCNotification`, which embeds `Notification`. -/
structure JSONRPCNotification where
  JSONRPC : String
  Notification : Notification

/-- The non-nil values of the interface `mcp.JSONRPCMessage` (an `any`), by dynamic type;
`other` is a value of any type the transport does not know. A nil interface is `none`. -/
inductive JSONRPCMessage where
  | request (v : JSONRPCRequest)
  | response (v : JSONRPCResponse)
  | error (v : JSONRPCError)
  | notification (v : JSONRPCNotification)
  | other (typeName : String)

/-- The constant `mcp.JSONRPC_VERSION`. -/
def JSONRPC_VERSION : String := "2.0"

/-- The constructor `mcp.NewJSONRPCError`. -/
def NewJSONRPCError (id : RequestId) (code : Int) (message : String) (data : Option Value) :
    JSONRPCError :=
  { JSONRPC := JSONRPC_VERSION, ID := id,
    Error := { Code := code, Message := message, Data := data } }

end mcp

/-- The library calls that turn a host payload into a value bag: `json.Marshal` (of an
`any` payload, and of a notification's `NotificationParams`), `json.Unmarshal` into a
`map[string]interface{}`, and `structpb.NewStruct`. -/
structure JsonLib where
  Marshal : Option Value → Go String
  MarshalNotificationParams : mcp.NotificationParams → Go String
  Unmarshal : String → Go GoMap
  NewStruct : GoMap → Go Struct

/-! ## metoro-io transport: classification and translation -/

namespace Metoro
open transport

/-- The function `GetMessageType` of the metoro-io transport: the first matching case of
its `switch` decides. -/
def GetMessageType (m : pb.GenericJSONRPCMessage) : Go BaseMessageType :=
  if m.TypedId.isSome ∧ m.Method ≠ "" then
    Except.ok BaseMessageTypeJSONRPCRequestType
  else if m.TypedId.isSome ∧ m.Result.isSome then
    Except.ok BaseMessageTypeJSONRPCResponseType
  else if m.TypedId.isSome ∧ m.Error.isSome then
    Except.ok BaseMessageTypeJSONRPCErrorType
  else if m.TypedId.isNone ∧ m.Method ≠ "" then
    Except.ok BaseMessageTypeJSONRPCNotificationType
  else
    errorf "failed to find the type of the message"

/-- The function `ToBaseJsonRpcMessage` of the metoro-io transport. `marshalJSON` is the
library method `(*structpb.Struct).MarshalJSON`, called on `m.Params` or `m.Result`. -/
def ToBaseJsonRpcMessage (marshalJSON : Option Struct → Go String)
    (m : pb.GenericJSONRPCMessage) : Go BaseJsonRpcMessage :=
  match GetMessageType m with
  | Except.error err => Except.error err
  | Except.ok tp =>
    let msg : BaseJsonRpcMessage := { Type_ := tp }
    -- `var id transport.RequestId`: zero unless the `ID_Num` case assigns it
    match pb.GetKind m.TypedId with
    | pb.IDKind.ID_Str s => errorf ("string type ID not supported yet: " ++ s)
    | kind =>
      let id : Int := match kind with
        | pb.IDKind.ID_Num n => n
        | _ => 0
      if msg.Type_ = BaseMessageTypeJSONRPCRequestType then
        match marshalJSON m.Params with
        | Except.error err => Except.error err
        | Except.ok params =>
          Except.ok { msg with
            JsonRpcRequest := some
              { Jsonrpc := m.Jsonrpc, Id := id, Method := m.Method, Params := params } }
      else if msg.Type_ = BaseMessageTypeJSONRPCNotificationType then
        match marshalJSON m.Params with
        | Except.error err => Except.error err
        | Except.ok params =>
          Except.ok { msg with
            JsonRpcNotification := some
              { Jsonrpc := m.Jsonrpc, Method := m.Method, Params := params } }
      else if msg.Type_ = BaseMessageTypeJSONRPCResponseType then
        match marshalJSON m.Result with
        | Except.error err => Except.error err
        | Except.ok result =>
          Except.ok { msg with
            JsonRpcResponse := some { Jsonrpc := m.Jsonrpc, Id := id, Result := result } }
      else if msg.Type_ = BaseMessageTypeJSONRPCErrorType then
        match m.Error with
        | none => nilDeref
        | some e =>
          Except.ok { msg with
            JsonRpcError := some
              { Jsonrpc := m.Jsonrpc, Id := id,
                Error := { Code := e.Code, Data := e.Data, Message := e.Message } } }
      else
        errorf ("unknown message type, couldn't marshal: " ++ msg.Type_)

/-- The function `RawMessageToStruct` of the metoro-io transport. -/
def RawMessageToStruct (lib : JsonLib) (raw : String) : Go Struct :=
  match lib.Unmarshal raw with
  | Except.error err => Except.error err
  | Except.ok m => lib.NewStruct m

/-- The function `ToGenericRpcMessage` of the metoro-io transport. Each case reads the
variant pointer that goes with the type tag; reading through a nil pointer panics. -/
def ToGenericRpcMessage (lib : JsonLib) (m : BaseJsonRpcMessage) :
    Go pb.GenericJSONRPCMessage :=
  let msg : pb.GenericJSONRPCMessage := {}
  if m.Type_ = BaseMessageTypeJSONRPCRequestType then
    match m.JsonRpcRequest with
    | none => nilDeref
    | some r =>
      match RawMessageToStruct lib r.Params with
      | Except.error err => Except.error err
      | Except.ok params =>
        Except.ok { msg with
          Jsonrpc := r.Jsonrpc, TypedId := some { Kind := pb.IDKind.ID_Num r.Id },
          Method := r.Method, Params := some params }
  else if m.Type_ = BaseMessageTypeJSONRPCResponseType then
    match m.JsonRpcResponse with
    | none => nilDeref
    | some r =>
      match RawMessageToStruct lib r.Result with
      | Except.error err => Except.error err
      | Except.ok result =>
        Except.ok { msg with
          Jsonrpc := r.Jsonrpc, TypedId := some { Kind := pb.IDKind.ID_Num r.Id },
          Result := some result }
  else if m.Type_ = BaseMessageTypeJSONRPCNotificationType then
    match m.JsonRpcNotification with
    | none => nilDeref
    | some n =>
      match RawMessageToStruct lib n.Params with
      | Except.error err => Except.error err
      | Except.ok params =>
        Except.ok { msg with Jsonrpc := n.Jsonrpc, Method := n.Method, Params := some params }
  else if m.Type_ = BaseMessageTypeJSONRPCErrorType then
    match m.JsonRpcError with
    | none => nilDeref
    | some e =>
      Except.ok { msg with
        Jsonrpc := e.Jsonrpc, TypedId := some { Kind := pb.IDKind.ID_Num e.Id },
        Error := some { Code := toInt32 e.Error.Code, Message := e.Error.Message } }
  else
    errorf "unsupported type for BaseJsonRpcMessage"

end Metoro

/-! ## mark3labs transport: translation and the session loop -/

namespace Mark3labs

/-- The case analysis of `ToJsonRpcMessage`: the value `tmp` that the matching case builds
and hands to `marshalToRawMessage`. -/
def ToJsonRpcMessage.tmp (m : pb.GenericJSONRPCMessage) : Go mcp.JSONRPCMessage :=
  if m.TypedId.isSome ∧ m.Method ≠ "" then
    -- JSON-RPC Request
    Except.ok (mcp.JSONRPCMessage.request
      { JSONRPC := m.Jsonrpc,
        ID := mcp.NewRequestId m.TypedId,
        Params := m.Params.map Value.struct,
        Request := { Method := m.Method, Params := { Meta := none } } })
  else if m.TypedId.isSome ∧ m.Result.isSome then
    -- JSON-RPC Response
    Except.ok (mcp.JSONRPCMessage.response
      { JSONRPC := m.Jsonrpc,
        ID := mcp.NewRequestId m.TypedId,
        Result := m.Result.map Value.struct })
  else if m.TypedId.isSome ∧ m.Error.isSome then
    -- JSON-RPC Error
    match m.Error with
    | none => nilDeref
    | some e =>
      Except.ok (mcp.JSONRPCMessage.error
        (mcp.NewJSONRPCError (mcp.NewRequestId m.TypedId) e.Code e.Message e.Data))
  else if m.TypedId.isNone ∧ m.Method ≠ "" then
    -- JSON-RPC Notification
    Except.ok (mcp.JSONRPCMessage.notification
      { JSONRPC := m.Jsonrpc,
        Notification := { Method := m.Method, Params := {} } })
  else
    errorf "failed to determine the type of the message"

/-- The helper `marshalToRawMessage`; `jsonMarshal` is `json.Marshal`. -/
def marshalToRawMessage {α : Type} (jsonMarshal : α → Go String) (v : α) : Go String :=
  match jsonMarshal v with
  | Except.error err => Except.error err
  | Except.ok rawBytes => Except.ok rawBytes

/-- The function `ToJsonRpcMessage` of the mark3labs transport, on a possibly nil
message. -/
def ToJsonRpcMessage (jsonMarshal : mcp.JSONRPCMessage → Go String)
    (m : Option pb.GenericJSONRPCMessage) : Go String :=
  match m with
  | none => errorf "input message is nil"
  | some m =>
    match ToJsonRpcMessage.tmp m with
    | Except.error err => Except.error err
    | Except.ok tmp => marshalToRawMessage jsonMarshal tmp

/-- The helper `genericStruct`: marshal, unmarshal into a map, build the bag.
`jsonMarshal` is `json.Marshal` at the type of `v`. -/
def genericStruct {α : Type} (jsonMarshal : α → Go String) (lib : JsonLib) (v : α) :
    Go Struct :=
  match jsonMarshal v with
  | Except.error err => Except.error err
  | Except.ok rawBytes =>
    match lib.Unmarshal rawBytes with
    | Except.error err => Except.error err
    | Except.ok m => lib.NewStruct m

/-- The text Go's `%T` prints for a message the type switch does not know. -/
def typeName : mcp.JSONRPCMessage → String
  | mcp.JSONRPCMessage.request _ => "mcp.JSONRPCRequest"
  | mcp.JSONRPCMessage.response _ => "mcp.JSONRPCResponse"
  | mcp.JSONRPCMessage.error _ => "mcp.JSONRPCError"
  | mcp.JSONRPCMessage.notification _ => "mcp.JSONRPCNotification"
  | mcp.JSONRPCMessage.other name => name

/-- The function `FromJsonRpcMessage` of the mark3labs transport. -/
def FromJsonRpcMessage (lib : JsonLib)
    (m : Option mcp.JSONRPCMessage) (id : Option pb.ID) : Go pb.GenericJSONRPCMessage :=
  match m with
  | none => errorf "input message is nil"
  | some m =>
    let msg : pb.GenericJSONRPCMessage := {}
    match m with
    | mcp.JSONRPCMessage.request v =>
      match genericStruct lib.Marshal lib v.Params with
      | Except.error err => Except.error err
      | Except.ok params =>
        Except.ok { msg with
          Jsonrpc := v.JSONRPC, TypedId := id, Method := v.Request.Method,
          Params := some params }
    | mcp.JSONRPCMessage.response v =>
      match genericStruct lib.Marshal lib v.Result with
      | Except.error err => Except.error err
      | Except.ok result =>
        Except.ok { msg with Jsonrpc := v.JSONRPC, TypedId := id, Result := some result }
    | mcp.JSONRPCMessage.error v =>
      Except.ok { msg with
        Jsonrpc := v.JSONRPC, TypedId := id,
        Error := some { Code := toInt32 v.Error.Code, Message := v.Error.Message } }
    | mcp.JSONRPCMessage.notification v =>
      match genericStruct lib.MarshalNotificationParams lib v.Notification.Params with
      | Except.error err => Except.error err
      | Except.ok params =>
        Except.ok { msg with
          Jsonrpc := v.JSONRPC, Method := v.Notification.Method, Params := some params }
    | other => errorf ("unsupported MCP message type: " ++ typeName other)

/-- What `stream.Recv` can return to the session loop. -/
inductive RecvEvent where
  | message (ms : pb.GenericJSONRPCMessage)
  | eof
  | error (text : String)

/-- How a run of the session loop over a finite list of receive events ends: still blocked
in `stream.Recv` when the events are used up, returned (with or without an error), or
aborted by a panic. -/
inductive Outcome where
  | receiving
  | returned (err : Option String)
  | panicked (text : String)
  deriving DecidableEq, Repr

/-- The outcome of the loop when a step fails. -/
def Outcome.ofFailure : Failure → Outcome
  | Failure.error text => Outcome.returned (some text)
  | Failure.panic text => Outcome.panicked text

/-- A run of the session loop: the messages passed to a successful `stream.Send`, in
order, and how the loop ended. -/
structure Session where
  sent : List pb.GenericJSONRPCMessage
  outcome : Outcome

/-- The host engine and the stream seen by `GrpcServer.Transport`: `HandleMessage` is
`(*MCPServer).HandleMessage` on an engine state `σ`, `Send` is `stream.Send` (the error it
returns, if any), and the remaining fields are the library calls of the translators. -/
structure Env (σ : Type) where
  HandleMessage : σ → String → σ × Option mcp.JSONRPCMessage
  Send : pb.GenericJSONRPCMessage → Option String
  jsonMarshal : mcp.JSONRPCMessage → Go String
  lib : JsonLib

/-- The method `GrpcServer.Transport`: the session loop, run over the events that
`stream.Recv` returns one after the other. -/
def Transport {σ : Type} (env : Env σ) : σ → List RecvEvent → Session
  | _, [] => { sent := [], outcome := Outcome.receiving }
  | _, RecvEvent.eof :: _ => { sent := [], outcome := Outcome.returned none }
  | _, RecvEvent.error text :: _ => { sent := [], outcome := Outcome.returned (some text) }
  | st, RecvEvent.message ms :: rest =>
    match ToJsonRpcMessage env.jsonMarshal (some ms) with
    | Except.error err => { sent := [], outcome := Outcome.ofFailure err }
    | Except.ok baseMsg =>
      let (st1, jmsg) := env.HandleMessage st baseMsg
      match FromJsonRpcMessage env.lib jmsg ms.TypedId with
      | Except.error err => { sent := [], outcome := Outcome.ofFailure err }
      | Except.ok pbmsg =>
        match env.Send pbmsg with
        | some er => { sent := [], outcome := Outcome.returned (some er) }
        | none =>
          let run := Transport env st1 rest
          { sent := pbmsg :: run.sent, outcome := run.outcome }

end Mark3labs

/-! ## The command-line client: `getId` and `parseResp` -/

namespace Client

/-- A JSON number literal `mant * 10 ^ exp`: its digits as a signed integer and its decimal
exponent, so `1`, `1.0` and `10e-1` are `(1, 0)`, `(10, -1)` and `(10, -1)`. -/
structure JsonNumber where
  mant : Int
  exp : Int := 0
  deriving DecidableEq, Repr

/-- A finite Go `float64`, `(-1) ^ neg * mant * 2 ^ exp`. -/
structure Float64 where
  neg : Bool
  mant : Nat
  exp : Int
  deriving DecidableEq, Repr

/-- The number of binary digits of `n`, with `fuel` at least that number. -/
def bitLenAux : Nat → Nat → Nat
  | 0, _ => 0
  | fuel + 1, n => if n = 0 then 0 else bitLenAux fuel (n / 2) + 1

/-- The number of binary digits of `n` (`0` for `0`). -/
def bitLen (n : Nat) : Nat := bitLenAux n n

/-- The integer nearest to `a / b`, a tie going to the even one. -/
def nearestEven (a b : Nat) : Nat :=
  let q := a / b
  let r := a % b
  if 2 * r < b then q
  else if b < 2 * r then q + 1
  else if q % 2 = 0 then q
  else q + 1

/-- The exponent of the unit in the last place of the `float64` nearest below `a / b`:
`floor (log2 (a / b)) - 52`, and `-1074` in the subnormal range. -/
def ulpExp (a b : Nat) : Int :=
  let k : Int := (bitLen a : Int) - (bitLen b : Int)
  let below : Bool :=
    if 0 ≤ k then decide (a < b * 2 ^ k.toNat) else decide (a * 2 ^ (-k).toNat < b)
  let l : Int := if below then k - 1 else k
  max (l - 52) (-1074)

/-- The library function `strconv.ParseFloat(s, 64)` as `encoding/json` calls it on a
number literal: the nearest `float64`, ties to even, or a range error. The error carries
the text of json's `UnmarshalTypeError` without the literal it quotes. -/
def parseFloat64 (lit : JsonNumber) : Go Float64 :=
  let a : Nat := if 0 ≤ lit.exp then lit.mant.natAbs * 10 ^ lit.exp.toNat else lit.mant.natAbs
  let b : Nat := if 0 ≤ lit.exp then 1 else 10 ^ (-lit.exp).toNat
  let e := ulpExp a b
  let m := nearestEven (a * 2 ^ (-e).toNat) (b * 2 ^ e.toNat)
  if 971 < e ∨ (e = 971 ∧ m = 2 ^ 53) then
    errorf "json: cannot unmarshal number into Go value of type float64"
  else
    Except.ok { neg := decide (lit.mant < 0), mant := m, exp := e }

/-- Go's conversion `int64(v)` of a `float64`: the fraction is discarded. A value outside
the range of `int64` converts to `-2 ^ 63`, as on amd64 (the language leaves it to the
implementation). -/
def float64ToInt64 (v : Float64) : Int :=
  let mag : Nat :=
    if 0 ≤ v.exp then v.mant * 2 ^ v.exp.toNat else v.mant / 2 ^ (-v.exp).toNat
  let t : Int := if v.neg then -(mag : Int) else (mag : Int)
  if -(2 : Int) ^ 63 ≤ t ∧ t < (2 : Int) ^ 63 then t else -(2 : Int) ^ 63

/-- The value of the member `"id"` of an input line. For an array or an object only the
text Go's `%v` prints for the decoded value is kept. -/
inductive JsonValue where
  | null
  | string (s : String)
  | number (lit : JsonNumber)
  | bool (b : Bool)
  | array (shown : String)
  | object (shown : String)
  deriving DecidableEq, Repr

/-- An input line as `json.Unmarshal` sees it when decoding into a pointer to a struct: not
decodable (with json's error text), the JSON literal `null`, or a JSON object, with the
member that json matches to the field `ID` (the last one whose key is `id`, letter case
ignored) or without one. -/
inductive Line where
  | invalid (err : String)
  | null
  | object (id : Option JsonValue)
  deriving DecidableEq, Repr

/-- The dynamic value of the field `ID any` after decoding, by Go type. -/
inductive GoAny where
  | nil
  | string (v : String)
  | int (v : Int)
  | float64 (v : Float64)
  | bool (v : Bool)
  | slice (shown : String)
  | map (shown : String)
  deriving DecidableEq, Repr

/-- The library call `json.Unmarshal(line, &msg)` of `getId`, where `msg` is already a
pointer to the struct with the field `ID any`. It gives the field of the struct that `msg`
points to afterwards, or `none` when `msg` is nil afterwards: the line `null` sets the
pointer `msg` itself to nil, without an error. In an object a missing or null member leaves
the field nil, a string decodes to a `string`, a number to a `float64`, a boolean to a
`bool`, an array to a slice and an object to a map. -/
def jsonUnmarshal : Line → Go (Option GoAny)
  | Line.invalid err => errorf err
  | Line.null => Except.ok none
  | Line.object none => Except.ok (some GoAny.nil)
  | Line.object (some JsonValue.null) => Except.ok (some GoAny.nil)
  | Line.object (some (JsonValue.string s)) => Except.ok (some (GoAny.string s))
  | Line.object (some (JsonValue.number lit)) =>
    match parseFloat64 lit with
    | Except.error err => Except.error err
    | Except.ok f => Except.ok (some (GoAny.float64 f))
  | Line.object (some (JsonValue.bool b)) => Except.ok (some (GoAny.bool b))
  | Line.object (some (JsonValue.array shown)) => Except.ok (some (GoAny.slice shown))
  | Line.object (some (JsonValue.object shown)) => Except.ok (some (GoAny.map shown))

/-- The function `getId` of the client. After a decoding without error it reads `msg.ID`,
which dereferences `msg`: a nil `msg` panics. -/
def getId (line : Line) : Go (Option pb.ID) :=
  match jsonUnmarshal line with
  | Except.error err => Except.error err
  | Except.ok none => nilDeref
  | Except.ok (some msgID) =>
    match msgID with
    | GoAny.string v => Except.ok (some { Kind := pb.IDKind.ID_Str v })
    | GoAny.int v => Except.ok (some { Kind := pb.IDKind.ID_Num v })
    | GoAny.float64 v => Except.ok (some { Kind := pb.IDKind.ID_Num (float64ToInt64 v) })
    | GoAny.nil => Except.ok none
    | GoAny.bool v =>
      errorf ("failed to infer \x27id\x27 type: \x27bool:" ++ toString v ++ "\x27")
    | GoAny.slice shown =>
      errorf ("failed to infer \x27id\x27 type: \x27[]interface \x7b\x7d:" ++ shown ++ "\x27")
    | GoAny.map shown =>
      errorf ("failed to infer \x27id\x27 type: \x27map[string]interface \x7b\x7d:" ++ shown
        ++ "\x27")

/-- The two local struct types `respType` of `parseResp`: a field `ID` tagged
`json:"id"`, of Go type `int64` or `string`, and the embedded message. -/
inductive respType where
  | int64 (ID : Int) (msg : pb.GenericJSONRPCMessage)
  | string (ID : String) (msg : pb.GenericJSONRPCMessage)

/-- The function `parseResp` of the client; `jsonMarshal` is `json.Marshal`. -/
def parseResp (jsonMarshal : respType → Go String) (m : pb.GenericJSONRPCMessage) :
    Go String :=
  match pb.GetKind m.TypedId with
  | pb.IDKind.ID_Num num => jsonMarshal (respType.int64 num { m with TypedId := none })
  | pb.IDKind.ID_Str str => jsonMarshal (respType.string str { m with TypedId := none })
  | pb.IDKind.unset =>
    errorf "unsupported \x27id\x27 type in response: \x27<nil>:<nil>\x27"

end Client

/-! ## metoro-io transport: the server object, `Send` and the session loop -/

namespace Metoro
open transport

/-- A `grpc.ServerOption`, opaque to the transport. -/
structure ServerOption where
  name : String
  deriving DecidableEq, Repr

/-- What a `context.Context` can hold under a key of type `ctxKey`: a value that implements
`pb.JSONRPCService_TransportServer`, given by what its `Send` returns (the error, if any),
or a value of another type. -/
inductive CtxValue where
  | stream (send : pb.GenericJSONRPCMessage → Option String)
  | other (typeName : String)

/-- A `context.Context`, by its method `Value` on keys of type `ctxKey`; `none` is the nil
interface that `Value` returns for a key the context does not hold. -/
abbrev Context := String → Option CtxValue

/-- The context `context.Background()`, which holds no value. -/
def Background : Context := fun _ => none

/-- The function `context.WithValue` on a `ctxKey`. -/
def WithValue (parent : Context) (key : String) (val : CtxValue) : Context :=
  fun k => if k = key then some val else parent k

/-- The struct `GrpcServerTransport`. A handler is a Go func value, nil or not; calling one
acts on a state `σ` of everything outside the transport. The mutex is not modelled. -/
structure GrpcServerTransport (σ : Type) where
  onClose : Option (σ → σ) := none
  onError : Option (String → σ → σ) := none
  onMessage : Option (Context → BaseJsonRpcMessage → σ → σ) := none
  host : String := ""
  port : Int := 0
  grpcOpts : List ServerOption := []

/-- The type `GrpcServerTransportOption`: a function that updates the transport in place. -/
abbrev GrpcServerTransportOption (σ : Type) := GrpcServerTransport σ → GrpcServerTransport σ

def WithHost {σ : Type} (host : String) : GrpcServerTransportOption σ :=
  fun s => { s with host := host }

def WithPort {σ : Type} (port : Int) : GrpcServerTransportOption σ :=
  fun s => { s with port := port }

def WithGrpcOpts {σ : Type} (opts : List ServerOption) : GrpcServerTransportOption σ :=
  fun s => { s with grpcOpts := opts }

/-- The constructor `NewGrpcServerTransport`: the options run in order on a transport
whose port is 50051 and whose other fields are zero. -/
def NewGrpcServerTransport {σ : Type} (opts : List (GrpcServerTransportOption σ)) :
    GrpcServerTransport σ :=
  opts.foldl (fun srv opt => opt srv) { port := 50051 }

/-- The method `SetCloseHandler`. -/
def GrpcServerTransport.SetCloseHandler {σ : Type} (t : GrpcServerTransport σ)
    (handler : Option (σ → σ)) : GrpcServerTransport σ :=
  { t with onClose := handler }

/-- The method `SetErrorHandler`. -/
def GrpcServerTransport.SetErrorHandler {σ : Type} (t : GrpcServerTransport σ)
    (handler : Option (String → σ → σ)) : GrpcServerTransport σ :=
  { t with onError := handler }

/-- The method `SetMessageHandler`. -/
def GrpcServerTransport.SetMessageHandler {σ : Type} (t : GrpcServerTransport σ)
    (handler : Option (Context → BaseJsonRpcMessage → σ → σ)) : GrpcServerTransport σ :=
  { t with onMessage := handler }

/-- Calling a Go func value: a nil func panics. -/
def callFunc {σ : Type} (f : Option (σ → σ)) (st : σ) : Go σ :=
  match f with
  | none => nilDeref
  | some f => Except.ok (f st)

/-- The call `t.onClose()`. -/
def GrpcServerTransport.callOnClose {σ : Type} (t : GrpcServerTransport σ) (st : σ) : Go σ :=
  callFunc t.onClose st

/-- The call `t.onError(err)`. -/
def GrpcServerTransport.callOnError {σ : Type} (t : GrpcServerTransport σ) (err : String)
    (st : σ) : Go σ :=
  callFunc (t.onError.map (fun f => f err)) st

/-- The call `t.onMessage(ctx, message)`. -/
def GrpcServerTransport.callOnMessage {σ : Type} (t : GrpcServerTransport σ) (ctx : Context)
    (message : BaseJsonRpcMessage) (st : σ) : Go σ :=
  callFunc (t.onMessage.map (fun f => f ctx message)) st

/-- What a call of `Send` does: the messages it passed to a successful `stream.Send`, and
what it returned. -/
structure SendResult where
  sent : List pb.GenericJSONRPCMessage
  result : Go Unit

/-- The method `GrpcServerTransport.Send`. The type assertion on `ctx.Value` has the
single-value form, so it panics unless the context holds a stream under the key `stream`;
after it `stream` is not nil. `sprint` is `fmt`'s `%v` of the message. -/
def Send (lib : JsonLib) (sprint : BaseJsonRpcMessage → String) (ctx : Context)
    (message : BaseJsonRpcMessage) : SendResult :=
  match ctx "stream" with
  | none =>
    { sent := [],
      result := Except.error (Failure.panic
        "interface conversion: interface is nil, not jsonrpc.JSONRPCService_TransportServer") }
  | some (CtxValue.other typeName) =>
    { sent := [],
      result := Except.error (Failure.panic
        ("interface conversion: " ++ typeName
          ++ " is not jsonrpc.JSONRPCService_TransportServer: missing method")) }
  | some (CtxValue.stream send) =>
    match ToGenericRpcMessage lib message with
    | Except.error (Failure.panic text) =>
      { sent := [], result := Except.error (Failure.panic text) }
    | Except.error (Failure.error err) =>
      { sent := [],
        result := errorf
          ("failed to convert BaseJsonRpcMessage to GenericRpcMessage; msg: " ++ sprint message
            ++ "; err: " ++ err) }
    | Except.ok msg =>
      match send msg with
      | some err => { sent := [], result := errorf err }
      | none => { sent := [msg], result := Except.ok () }

/-- The method `GrpcServerTransport.Transport`: the session loop, run over the events that
`stream.Recv` returns one after the other. It gives the state the handler calls leave and
how the loop ended. `send` is the stream, which the loop puts in the context it passes to
the message handler. -/
def GrpcServerTransport.Transport {σ : Type} (marshalJSON : Option Struct → Go String)
    (t : GrpcServerTransport σ) (send : pb.GenericJSONRPCMessage → Option String) :
    σ → List Mark3labs.RecvEvent → σ × Mark3labs.Outcome
  | st, [] => (st, Mark3labs.Outcome.receiving)
  | st, Mark3labs.RecvEvent.eof :: _ => (st, Mark3labs.Outcome.returned none)
  | st, Mark3labs.RecvEvent.error text :: _ => (st, Mark3labs.Outcome.returned (some text))
  | st, Mark3labs.RecvEvent.message ms :: rest =>
    match ToBaseJsonRpcMessage marshalJSON ms with
    | Except.error err => (st, Mark3labs.Outcome.ofFailure err)
    | Except.ok baseMsg =>
      match t.callOnMessage (WithValue Background "stream" (CtxValue.stream send)) baseMsg st with
      | Except.error err => (st, Mark3labs.Outcome.ofFailure err)
      | Except.ok st1 => GrpcServerTransport.Transport marshalJSON t send st1 rest

end Metoro

namespace Mark3labs

/-- The state of the host engine when `GrpcServer.Transport` stops or blocks: the state
after the last call of `HandleMessage` that the loop made. -/
def engineState {σ : Type} (env : Env σ) : σ → List RecvEvent → σ
  | st, [] => st
  | st, RecvEvent.eof :: _ => st
  | st, RecvEvent.error _ :: _ => st
  | st, RecvEvent.message ms :: rest =>
    match ToJsonRpcMessage env.jsonMarshal (some ms) with
    | Except.error _ => st
    | Except.ok baseMsg =>
      let (st1, jmsg) := env.HandleMessage st baseMsg
      match FromJsonRpcMessage env.lib jmsg ms.TypedId with
      | Except.error _ => st1
      | Except.ok pbmsg =>
        match env.Send pbmsg with
        | some _ => st1
        | none => engineState env st1 rest

end Mark3labs

namespace Client

/-- The receive loop of the client's `main`: the lines it prints on standard output for the
events that `stream.Recv` returns. A message that `parseResp` rejects prints nothing there
(the error goes to standard error) and the loop goes on; a failed receive, or a panic, ends
the loop. -/
def inboundFlow (jsonMarshal : respType → Go String) : List Mark3labs.RecvEvent → List String
  | [] => []
  | Mark3labs.RecvEvent.eof :: _ => []
  | Mark3labs.RecvEvent.error _ :: _ => []
  | Mark3labs.RecvEvent.message resp :: rest =>
    match parseResp jsonMarshal resp with
    | Except.error (Failure.panic _) => []
    | Except.error (Failure.error _) => inboundFlow jsonMarshal rest
    | Except.ok b => b :: inboundFlow jsonMarshal rest

/-- The magnitude of a number literal as a fraction `a / b` of naturals. -/
def JsonNumber.magnitude (lit : JsonNumber) : Nat × Nat :=
  if 0 ≤ lit.exp then (lit.mant.natAbs * 10 ^ lit.exp.toNat, 1)
  else (lit.mant.natAbs, 10 ^ (-lit.exp).toNat)

/-- The value of a number literal truncated toward zero. -/
def JsonNumber.trunc (lit : JsonNumber) : Int :=
  let q : Nat := lit.magnitude.1 / lit.magnitude.2
  if lit.mant < 0 then -(q : Int) else (q : Int)

end Client

/-! ## Sample library functions

The theorems hold for every library function. The functions below stand in for
them where a concrete run is evaluated: a compact printer of value bags, and a decoder
that inverts it on a short list of documents. -/

namespace Sample

mutual
/-- A compact JSON text of a value. Strings are printed without escapes and a number as
its numerator, which is the number itself when it is an integer. -/
def render : Value → String
  | Value.null => "null"
  | Value.number q => toString q.num
  | Value.string s => "\"" ++ s ++ "\""
  | Value.bool b => toString b
  | Value.struct fields => "\x7b" ++ renderFields fields ++ "\x7d"
  | Value.list items => "[" ++ renderItems items ++ "]"
/-- The members of an object, separated by commas. -/
def renderFields : List (String × Value) → String
  | [] => ""
  | [(k, v)] => "\"" ++ k ++ "\":" ++ render v
  | (k, v) :: rest => "\"" ++ k ++ "\":" ++ render v ++ "," ++ renderFields rest
/-- The items of an array, separated by commas. -/
def renderItems : List Value → String
  | [] => ""
  | [v] => render v
  | v :: rest => render v ++ "," ++ renderItems rest
end

/-- A stand-in for `(*structpb.Struct).MarshalJSON`; a nil bag prints as the empty
object. -/
def marshalJSON : Option Struct → Go String
  | none => Except.ok "\x7b\x7d"
  | some fields => Except.ok (render (Value.struct fields))

/-- The documents the sample decoder knows. -/
def documents : List GoMap :=
  [[], [("ok", Value.bool true)], [("name", Value.string "Bob")]]

/-- A stand-in for `json.Unmarshal` into a map: the known document with this text. -/
def Unmarshal (raw : String) : Go GoMap :=
  match documents.find? (fun d => render (Value.struct d) == raw) with
  | some d => Except.ok d
  | none => errorf "json: cannot unmarshal into Go value of type map[string]interface \x7b\x7d"

/-- A stand-in for the library calls of the outbound translators. -/
def lib : JsonLib :=
  { Marshal := fun v =>
      match v with
      | none => Except.ok "null"
      | some v => Except.ok (render v)
    MarshalNotificationParams := fun _ => Except.ok "\x7b\x7d"
    Unmarshal := Unmarshal
    NewStruct := fun m => Except.ok m }

/-- A stand-in for `json.Marshal` of a host message: the protocol version and the method
of a request or a notification, and the version alone otherwise. -/
def jsonMarshal : mcp.JSONRPCMessage → Go String
  | mcp.JSONRPCMessage.request v =>
    Except.ok ("\x7b\"jsonrpc\":\"" ++ v.JSONRPC ++ "\",\"method\":\"" ++ v.Request.Method
      ++ "\"\x7d")
  | mcp.JSONRPCMessage.notification v =>
    Except.ok ("\x7b\"jsonrpc\":\"" ++ v.JSONRPC ++ "\",\"method\":\""
      ++ v.Notification.Method ++ "\"\x7d")
  | mcp.JSONRPCMessage.response v => Except.ok ("\x7b\"jsonrpc\":\"" ++ v.JSONRPC ++ "\"\x7d")
  | mcp.JSONRPCMessage.error v => Except.ok ("\x7b\"jsonrpc\":\"" ++ v.JSONRPC ++ "\"\x7d")
  | mcp.JSONRPCMessage.other _ => errorf "json: unsupported type"

/-- The members that follow `id` in a reply line, empty ones left out. -/
def respMembers (msg : pb.GenericJSONRPCMessage) : String :=
  (if msg.Jsonrpc = "" then "" else ",\"jsonrpc\":\"" ++ msg.Jsonrpc ++ "\"")
  ++ (if msg.Method = "" then "" else ",\"method\":\"" ++ msg.Method ++ "\"")
  ++ (match msg.Params with
      | none => ""
      | some params => ",\"params\":" ++ render (Value.struct params))
  ++ (match msg.Result with
      | none => ""
      | some result => ",\"result\":" ++ render (Value.struct result))
  ++ (match msg.Error with
      | none => ""
      | some e =>
        ",\"error\":\x7b\"code\":" ++ toString e.Code ++ ",\"message\":\"" ++ e.Message
          ++ "\"\x7d")

/-- A stand-in for `json.Marshal` of a `respType`: the field `ID` comes first, an `int64`
in decimal and a string in quotes. -/
def marshalResp : Client.respType → Go String
  | Client.respType.int64 ID msg =>
    Except.ok ("\x7b\"id\":" ++ toString ID ++ respMembers msg ++ "\x7d")
  | Client.respType.string ID msg =>
    Except.ok ("\x7b\"id\":\"" ++ ID ++ "\"" ++ respMembers msg ++ "\x7d")

/-- A host engine that answers no message, on a stream whose sends succeed. -/
def silentEnv : Mark3labs.Env Unit :=
  { HandleMessage := fun st _ => (st, none)
    Send := fun _ => none
    jsonMarshal := jsonMarshal
    lib := lib }

/-- A host engine that answers every message with the same Response, on a stream whose
sends succeed. Its state counts the calls of `HandleMessage`. -/
def answeringEnv : Mark3labs.Env Nat :=
  { HandleMessage := fun calls _ =>
      (calls + 1,
        some (mcp.JSONRPCMessage.response
          { JSONRPC := "2.0", ID := mcp.RequestId.int64 1,
            Result := some (Value.struct [("ok", Value.bool true)]) }))
    Send := fun _ => none
    jsonMarshal := jsonMarshal
    lib := lib }

/-- A metoro-io transport whose message handler logs the type of each message it is
given. -/
def loggingTransport : Metoro.GrpcServerTransport (List String) :=
  { port := 50051, onMessage := some (fun _ message log => log ++ [message.Type_]) }

/-- The request `tools/list` with the integer identifier `1`. -/
def toolsList : pb.GenericJSONRPCMessage :=
  { Jsonrpc := "2.0", TypedId := some { Kind := pb.IDKind.ID_Num 1 }, Method := "tools/list" }

end Sample

/-- The kind of a mark3labs host message, named as the metoro-io type tags are. -/
def Mark3labs.kindOf : mcp.JSONRPCMessage → transport.BaseMessageType
  | mcp.JSONRPCMessage.request _ => transport.BaseMessageTypeJSONRPCRequestType
  | mcp.JSONRPCMessage.response _ => transport.BaseMessageTypeJSONRPCResponseType
  | mcp.JSONRPCMessage.error _ => transport.BaseMessageTypeJSONRPCErrorType
  | mcp.JSONRPCMessage.notification _ => transport.BaseMessageTypeJSONRPCNotificationType
  | mcp.JSONRPCMessage.other _ => ""

/-! ## Classification -/

open transport

/-- C1, counterexample: a message carrying an identifier, a method and a result is not
rejected. Both classifiers take it for a Request. -/
theorem C1_id_method_result_is_request :
    Metoro.GetMessageType
        { TypedId := some { Kind := pb.IDKind.ID_Num 1 }, Method := "tools/call",
          Result := some [] }
      = Except.ok BaseMessageTypeJSONRPCRequestType
    ∧ (Mark3labs.ToJsonRpcMessage.tmp
        { TypedId := some { Kind := pb.IDKind.ID_Num 1 }, Method := "tools/call",
          Result := some [] }).map Mark3labs.kindOf
      = Except.ok BaseMessageTypeJSONRPCRequestType := by
  constructor <;> rfl

/-- C1, as amended: both classifiers decide by the first matching case, each case looking
at the identifier and one more field. An identifier with a non-empty method is a Request
whatever result and error are; an identifier with an empty method and a result is a
Response whatever the error is; an identifier with an empty method, no result and an error
is an ErrorResponse; no identifier with a non-empty method is a Notification whatever
result and error are; the five other presence combinations are rejected with an error. -/
theorem C1_classifier_first_match (m : pb.GenericJSONRPCMessage) :
    Metoro.GetMessageType m =
      (match m.TypedId.isSome, decide (m.Method ≠ ""), m.Result.isSome, m.Error.isSome with
        | true, true, _, _ => Except.ok BaseMessageTypeJSONRPCRequestType
        | true, false, true, _ => Except.ok BaseMessageTypeJSONRPCResponseType
        | true, false, false, true => Except.ok BaseMessageTypeJSONRPCErrorType
        | false, true, _, _ => Except.ok BaseMessageTypeJSONRPCNotificationType
        | _, _, _, _ => errorf "failed to find the type of the message")
    ∧ (Mark3labs.ToJsonRpcMessage.tmp m).map Mark3labs.kindOf =
      (match m.TypedId.isSome, decide (m.Method ≠ ""), m.Result.isSome, m.Error.isSome with
        | true, true, _, _ => Except.ok BaseMessageTypeJSONRPCRequestType
        | true, false, true, _ => Except.ok BaseMessageTypeJSONRPCResponseType
        | true, false, false, true => Except.ok BaseMessageTypeJSONRPCErrorType
        | false, true, _, _ => Except.ok BaseMessageTypeJSONRPCNotificationType
        | _, _, _, _ => errorf "failed to determine the type of the message") := by
  obtain ⟨jsonrpc, typedId, method, params, result, error⟩ := m
  constructor
  · by_cases hm : method = "" <;> cases typedId <;> cases result <;> cases error <;>
      simp [Metoro.GetMessageType, hm]
  · by_cases hm : method = "" <;> cases typedId <;> cases result <;> cases error <;>
      simp [Mark3labs.ToJsonRpcMessage.tmp, hm, Except.map, errorf, Mark3labs.kindOf]

/-- C2: a message with an empty method, no result and no error, with or without an
identifier, is rejected by `GetMessageType` with an error, and `ToBaseJsonRpcMessage`
returns that error and no host message; it is not classified as a Notification. -/
theorem C2_bare_message_rejected (marshalJSON : Option Struct → Go String)
    (m : pb.GenericJSONRPCMessage)
    (hmethod : m.Method = "") (hresult : m.Result = none) (herror : m.Error = none) :
    Metoro.GetMessageType m = errorf "failed to find the type of the message"
    ∧ Metoro.ToBaseJsonRpcMessage marshalJSON m
        = errorf "failed to find the type of the message"
    ∧ Metoro.GetMessageType m ≠ Except.ok BaseMessageTypeJSONRPCNotificationType := by
  have hty : Metoro.GetMessageType m = errorf "failed to find the type of the message" := by
    simp [Metoro.GetMessageType, hmethod, hresult, herror]
  refine ⟨hty, ?_, ?_⟩
  · simp [Metoro.ToBaseJsonRpcMessage, hty, errorf]
  · simp [hty, errorf]

/-- C2, witness: the empty message of `TestToBaseJsonRpcMessage_UnknownType`. -/
theorem C2_bare_message_rejected_witness :
    (({} : pb.GenericJSONRPCMessage).Method = ""
      ∧ ({} : pb.GenericJSONRPCMessage).Result = none
      ∧ ({} : pb.GenericJSONRPCMessage).Error = none)
    ∧ Metoro.GetMessageType {} = errorf "failed to find the type of the message"
    ∧ Metoro.ToBaseJsonRpcMessage Sample.marshalJSON {}
        = errorf "failed to find the type of the message"
    ∧ Metoro.GetMessageType {} ≠ Except.ok BaseMessageTypeJSONRPCNotificationType :=
  ⟨⟨rfl, rfl, rfl⟩, C2_bare_message_rejected Sample.marshalJSON {} rfl rfl rfl⟩

/-- C3: a message whose identifier is the string `s` is never translated:
`ToBaseJsonRpcMessage` returns an error (not a host message, and not a panic), and when
the message classifies as a valid kind the error text is
`string type ID not supported yet: ` followed by `s`. -/
theorem C3_string_id_rejected (marshalJSON : Option Struct → Go String) (s : String)
    (m : pb.GenericJSONRPCMessage) (hid : m.TypedId = some { Kind := pb.IDKind.ID_Str s }) :
    (∃ text, Metoro.ToBaseJsonRpcMessage marshalJSON m = errorf text)
    ∧ (∀ tp, Metoro.GetMessageType m = Except.ok tp →
        Metoro.ToBaseJsonRpcMessage marshalJSON m
          = errorf ("string type ID not supported yet: " ++ s)) := by
  have valid : ∀ tp, Metoro.GetMessageType m = Except.ok tp →
      Metoro.ToBaseJsonRpcMessage marshalJSON m
        = errorf ("string type ID not supported yet: " ++ s) := by
    intro tp htp
    simp [Metoro.ToBaseJsonRpcMessage, htp, hid, pb.GetKind]
  refine ⟨?_, valid⟩
  cases htp : Metoro.GetMessageType m with
  | ok tp => exact ⟨_, valid tp htp⟩
  | error err =>
    have hfail : Metoro.GetMessageType m = errorf "failed to find the type of the message" := by
      unfold Metoro.GetMessageType at htp ⊢
      split_ifs at htp ⊢
      rfl
    exact ⟨"failed to find the type of the message",
      by simp [Metoro.ToBaseJsonRpcMessage, hfail, errorf]⟩

/-- C3, witness: the message of `TestToBaseJsonRpcMessage_UnsupportedStringID`, whose
error text is `string type ID not supported yet: abc`. -/
theorem C3_string_id_rejected_witness :
    Metoro.ToBaseJsonRpcMessage Sample.marshalJSON
        { TypedId := some { Kind := pb.IDKind.ID_Str "abc" }, Method := "testMethod" }
      = errorf "string type ID not supported yet: abc" :=
  (C3_string_id_rejected Sample.marshalJSON "abc"
      { TypedId := some { Kind := pb.IDKind.ID_Str "abc" }, Method := "testMethod" } rfl).2
    BaseMessageTypeJSONRPCRequestType rfl

/-- C4, the code at the failing input: an identifier whose union is unset passes the
`switch` on the identifier kind, which has no default case, and the translation goes on
with the zero identifier. A message with such an identifier and a method becomes a Request
with identifier `0` (when its parameter bag serialises), and one with an error becomes an
Error host message with identifier `0`. -/
theorem C4_unset_id_forwarded_as_zero (marshalJSON : Option Struct → Go String) :
    Metoro.ToBaseJsonRpcMessage marshalJSON
        { Jsonrpc := "2.0", TypedId := some { Kind := pb.IDKind.unset }, Method := "ping" }
      = (marshalJSON none).map (fun params =>
          { Type_ := BaseMessageTypeJSONRPCRequestType,
            JsonRpcRequest := some
              { Jsonrpc := "2.0", Id := 0, Method := "ping", Params := params } })
    ∧ Metoro.ToBaseJsonRpcMessage marshalJSON
        { Jsonrpc := "2.0", TypedId := some { Kind := pb.IDKind.unset },
          Error := some { Code := -32600, Message := "Invalid Request" } }
      = Except.ok
          { Type_ := BaseMessageTypeJSONRPCErrorType,
            JsonRpcError := some
              { Jsonrpc := "2.0", Id := 0,
                Error := { Code := -32600, Data := none, Message := "Invalid Request" } } } := by
  constructor
  · cases h : marshalJSON none <;>
      simp [Metoro.ToBaseJsonRpcMessage, Metoro.GetMessageType, pb.GetKind, h, Except.map,
        BaseMessageTypeJSONRPCRequestType]
  · rfl

/-! ## Outbound translation -/

/-- C5: when `FromJsonRpcMessage` translates a host reply of variant Request, Response or
Error, the wire message carries exactly the identifier it was given, kind and value,
whatever identifier the reply itself holds. -/
theorem C5_reply_carries_captured_id (lib : JsonLib) (m : mcp.JSONRPCMessage)
    (id : Option pb.ID) (msg : pb.GenericJSONRPCMessage)
    (hvariant : (∃ v, m = mcp.JSONRPCMessage.request v)
      ∨ (∃ v, m = mcp.JSONRPCMessage.response v) ∨ (∃ v, m = mcp.JSONRPCMessage.error v))
    (hok : Mark3labs.FromJsonRpcMessage lib (some m) id = Except.ok msg) :
    msg.TypedId = id := by
  rcases hvariant with ⟨v, rfl⟩ | ⟨v, rfl⟩ | ⟨v, rfl⟩
  · simp only [Mark3labs.FromJsonRpcMessage] at hok
    split at hok
    · cases hok
    · cases hok
      rfl
  · simp only [Mark3labs.FromJsonRpcMessage] at hok
    split at hok
    · cases hok
    · cases hok
      rfl
  · simp only [Mark3labs.FromJsonRpcMessage] at hok
    cases hok
    rfl

/-- C5, witness: a Response whose own identifier is the number `7`, translated with the
captured string identifier `abc`, goes out with identifier kind string, value `abc`. -/
theorem C5_reply_carries_captured_id_witness :
    Mark3labs.FromJsonRpcMessage Sample.lib
        (some (mcp.JSONRPCMessage.response
          { JSONRPC := "2.0", ID := mcp.RequestId.int64 7,
            Result := some (Value.struct [("ok", Value.bool true)]) }))
        (some { Kind := pb.IDKind.ID_Str "abc" })
      = Except.ok
          { Jsonrpc := "2.0", TypedId := some { Kind := pb.IDKind.ID_Str "abc" },
            Result := some [("ok", Value.bool true)] }
    ∧ ({ Jsonrpc := "2.0", TypedId := some { Kind := pb.IDKind.ID_Str "abc" },
          Result := some [("ok", Value.bool true)] } : pb.GenericJSONRPCMessage).TypedId
      = some { Kind := pb.IDKind.ID_Str "abc" } :=
  ⟨rfl,
    C5_reply_carries_captured_id Sample.lib
      (mcp.JSONRPCMessage.response
        { JSONRPC := "2.0", ID := mcp.RequestId.int64 7,
          Result := some (Value.struct [("ok", Value.bool true)]) })
      (some { Kind := pb.IDKind.ID_Str "abc" }) _ (Or.inr (Or.inl ⟨_, rfl⟩)) rfl⟩

/-- In the signed 32-bit range the conversion `int32(x)` changes nothing. -/
theorem toInt32_of_range (c : Int) (hlo : -(2 : Int) ^ 31 ≤ c) (hhi : c < (2 : Int) ^ 31) :
    toInt32 c = c := by
  unfold toInt32
  omega

/-- C6, counterexample: the error code `2 ^ 31`, which a Go `int` holds, goes out of both
outbound translators as `-2 ^ 31`. -/
theorem C6_code_beyond_int32_wraps :
    (Mark3labs.FromJsonRpcMessage Sample.lib
        (some (mcp.JSONRPCMessage.error
          { JSONRPC := "2.0", ID := mcp.RequestId.int64 1,
            Error := { Code := 2147483648, Message := "overflow", Data := none } }))
        (some { Kind := pb.IDKind.ID_Num 1 })).map
        (fun msg => msg.Error.map (fun e => (e.Code, e.Message)))
      = Except.ok (some (-2147483648, "overflow"))
    ∧ (Metoro.ToGenericRpcMessage Sample.lib
        { Type_ := BaseMessageTypeJSONRPCErrorType,
          JsonRpcError := some
            { Jsonrpc := "2.0", Id := 1,
              Error := { Code := 2147483648, Data := none, Message := "overflow" } } }).map
        (fun msg => msg.Error.map (fun e => (e.Code, e.Message)))
      = Except.ok (some (-2147483648, "overflow")) := by
  constructor <;> rfl

/-- C6, as amended: for an error reply whose code `c` lies in the signed 32-bit range,
both outbound translators succeed and produce a wire error with code `c` and the reply's
message. -/
theorem C6_error_code_and_message_copied (lib : JsonLib) (id : Option pb.ID)
    (v : mcp.JSONRPCError) (m : BaseJsonRpcMessage) (e : BaseJSONRPCError)
    (hv : -(2 : Int) ^ 31 ≤ v.Error.Code ∧ v.Error.Code < (2 : Int) ^ 31)
    (htype : m.Type_ = BaseMessageTypeJSONRPCErrorType) (herr : m.JsonRpcError = some e)
    (he : -(2 : Int) ^ 31 ≤ e.Error.Code ∧ e.Error.Code < (2 : Int) ^ 31) :
    (∃ msg werr, Mark3labs.FromJsonRpcMessage lib (some (mcp.JSONRPCMessage.error v)) id
        = Except.ok msg
      ∧ msg.Error = some werr ∧ werr.Code = v.Error.Code ∧ werr.Message = v.Error.Message)
    ∧ (∃ msg werr, Metoro.ToGenericRpcMessage lib m = Except.ok msg
      ∧ msg.Error = some werr ∧ werr.Code = e.Error.Code ∧ werr.Message = e.Error.Message) := by
  constructor
  · exact ⟨_, _, rfl, rfl, toInt32_of_range _ hv.1 hv.2, rfl⟩
  · have hrun : Metoro.ToGenericRpcMessage lib m = Except.ok
        { Jsonrpc := e.Jsonrpc, TypedId := some { Kind := pb.IDKind.ID_Num e.Id },
          Error := some { Code := toInt32 e.Error.Code, Message := e.Error.Message } } := by
      simp [Metoro.ToGenericRpcMessage, htype, herr, BaseMessageTypeJSONRPCErrorType,
        BaseMessageTypeJSONRPCRequestType, BaseMessageTypeJSONRPCResponseType,
        BaseMessageTypeJSONRPCNotificationType]
    exact ⟨_, _, hrun, rfl, toInt32_of_range _ he.1 he.2, rfl⟩

/-- C6, witness: the code `-32601` of `Method not found` is copied by both translators. -/
theorem C6_error_code_and_message_copied_witness :
    (∃ msg werr, Mark3labs.FromJsonRpcMessage Sample.lib
        (some (mcp.JSONRPCMessage.error
          { JSONRPC := "2.0", ID := mcp.RequestId.int64 1,
            Error := { Code := -32601, Message := "Method not found", Data := none } }))
        (some { Kind := pb.IDKind.ID_Num 1 }) = Except.ok msg
      ∧ msg.Error = some werr ∧ werr.Code = -32601 ∧ werr.Message = "Method not found")
    ∧ (∃ msg werr, Metoro.ToGenericRpcMessage Sample.lib
        { Type_ := BaseMessageTypeJSONRPCErrorType,
          JsonRpcError := some
            { Jsonrpc := "2.0", Id := 1,
              Error := { Code := -32601, Data := none, Message := "Method not found" } } }
        = Except.ok msg
      ∧ msg.Error = some werr ∧ werr.Code = -32601 ∧ werr.Message = "Method not found") :=
  C6_error_code_and_message_copied Sample.lib (some { Kind := pb.IDKind.ID_Num 1 })
    { JSONRPC := "2.0", ID := mcp.RequestId.int64 1,
      Error := { Code := -32601, Message := "Method not found", Data := none } }
    { Type_ := BaseMessageTypeJSONRPCErrorType,
      JsonRpcError := some
        { Jsonrpc := "2.0", Id := 1,
          Error := { Code := -32601, Data := none, Message := "Method not found" } } }
    { Jsonrpc := "2.0", Id := 1,
      Error := { Code := -32601, Data := none, Message := "Method not found" } }
    (by decide) rfl rfl (by decide)

/-- C7, the code at the failing input: whatever opaque data `d` a host error reply
carries, the wire error built by either outbound translator has no data. -/
theorem C7_error_data_dropped (lib : JsonLib) (id : Option pb.ID) (d : Value) :
    (Mark3labs.FromJsonRpcMessage lib
        (some (mcp.JSONRPCMessage.error
          { JSONRPC := "2.0", ID := mcp.RequestId.int64 1,
            Error := { Code := -32602, Message := "Invalid params", Data := some d } }))
        id).map (fun msg => msg.Error.map (fun e => e.Data))
      = Except.ok (some none)
    ∧ (Metoro.ToGenericRpcMessage lib
        { Type_ := BaseMessageTypeJSONRPCErrorType,
          JsonRpcError := some
            { Jsonrpc := "2.0", Id := 1,
              Error := { Code := -32602, Data := some d, Message := "Invalid params" } } }).map
        (fun msg => msg.Error.map (fun e => e.Data))
      = Except.ok (some none) := by
  constructor <;> rfl

/-! ## The mark3labs session loop -/

/-- C8, the code on a notification: when the received message has no identifier and a
non-empty method, and the host engine returns no reply for it, `GrpcServer.Transport` hands
the nil reply to `FromJsonRpcMessage`, whose nil check fails, and the loop returns that
error. Nothing is sent, and the receive events that follow are never read. -/
theorem C8_notification_ends_session {σ : Type} (env : Mark3labs.Env σ) (st : σ)
    (ms : pb.GenericJSONRPCMessage) (rest : List Mark3labs.RecvEvent) (raw : String)
    (hid : ms.TypedId = none) (hmethod : ms.Method ≠ "")
    (hraw : env.jsonMarshal (mcp.JSONRPCMessage.notification
        { JSONRPC := ms.Jsonrpc, Notification := { Method := ms.Method, Params := {} } })
      = Except.ok raw)
    (hsilent : (env.HandleMessage st raw).2 = none) :
    Mark3labs.Transport env st (Mark3labs.RecvEvent.message ms :: rest)
      = { sent := [], outcome := Mark3labs.Outcome.returned (some "input message is nil") } := by
  have htmp : Mark3labs.ToJsonRpcMessage.tmp ms = Except.ok (mcp.JSONRPCMessage.notification
      { JSONRPC := ms.Jsonrpc, Notification := { Method := ms.Method, Params := {} } }) := by
    simp [Mark3labs.ToJsonRpcMessage.tmp, hid, hmethod]
  have hbase : Mark3labs.ToJsonRpcMessage env.jsonMarshal (some ms) = Except.ok raw := by
    simp [Mark3labs.ToJsonRpcMessage, htmp, Mark3labs.marshalToRawMessage, hraw]
  simp [Mark3labs.Transport, hbase, hsilent, Mark3labs.FromJsonRpcMessage, errorf,
    Mark3labs.Outcome.ofFailure]

/-- C8, witness: a session that receives the notification `notifications/initialized` and
then a request, with an engine that answers nothing, ends at the notification with the
error `input message is nil`; the request is never read and nothing is sent. -/
theorem C8_notification_ends_session_witness :
    Mark3labs.Transport Sample.silentEnv ()
        [Mark3labs.RecvEvent.message
            { Jsonrpc := "2.0", Method := "notifications/initialized" },
          Mark3labs.RecvEvent.message
            { Jsonrpc := "2.0", TypedId := some { Kind := pb.IDKind.ID_Num 1 },
              Method := "tools/list" },
          Mark3labs.RecvEvent.eof]
      = { sent := [], outcome := Mark3labs.Outcome.returned (some "input message is nil") } :=
  C8_notification_ends_session Sample.silentEnv ()
    { Jsonrpc := "2.0", Method := "notifications/initialized" } _
    "\x7b\"jsonrpc\":\"2.0\",\"method\":\"notifications/initialized\"\x7d"
    rfl (by decide) rfl rfl

/-! ## Inbound translation of a request -/

/-- C10: a message with the integer identifier `n` and a non-empty method classifies as a
Request, and whenever its parameter bag serialises to `params`, `ToBaseJsonRpcMessage`
returns the Request host message with identifier `n`, the message's method and protocol
version, and `params` as raw payload. -/
theorem C10_request_translated (marshalJSON : Option Struct → Go String)
    (m : pb.GenericJSONRPCMessage) (n : Int) (params : String)
    (hid : m.TypedId = some { Kind := pb.IDKind.ID_Num n }) (hmethod : m.Method ≠ "")
    (hparams : marshalJSON m.Params = Except.ok params) :
    Metoro.GetMessageType m = Except.ok BaseMessageTypeJSONRPCRequestType
    ∧ Metoro.ToBaseJsonRpcMessage marshalJSON m = Except.ok
        { Type_ := BaseMessageTypeJSONRPCRequestType,
          JsonRpcRequest := some
            { Jsonrpc := m.Jsonrpc, Id := n, Method := m.Method, Params := params },
          JsonRpcNotification := none, JsonRpcResponse := none, JsonRpcError := none } := by
  have hty : Metoro.GetMessageType m = Except.ok BaseMessageTypeJSONRPCRequestType := by
    simp [Metoro.GetMessageType, hid, hmethod]
  refine ⟨hty, ?_⟩
  simp [Metoro.ToBaseJsonRpcMessage, hty, hid, pb.GetKind, hparams]

/-- C10, witness: identifier `42`, method `hello_world` and parameters with `name` set to
`Bob` become the Request with identifier `42` and that payload. -/
theorem C10_request_translated_witness :
    Metoro.GetMessageType
        { Jsonrpc := "2.0", TypedId := some { Kind := pb.IDKind.ID_Num 42 },
          Method := "hello_world", Params := some [("name", Value.string "Bob")] }
      = Except.ok BaseMessageTypeJSONRPCRequestType
    ∧ Metoro.ToBaseJsonRpcMessage Sample.marshalJSON
        { Jsonrpc := "2.0", TypedId := some { Kind := pb.IDKind.ID_Num 42 },
          Method := "hello_world", Params := some [("name", Value.string "Bob")] }
      = Except.ok
        { Type_ := BaseMessageTypeJSONRPCRequestType,
          JsonRpcRequest := some
            { Jsonrpc := "2.0", Id := 42, Method := "hello_world",
              Params := "\x7b\"name\":\"Bob\"\x7d" },
          JsonRpcNotification := none, JsonRpcResponse := none, JsonRpcError := none } :=
  C10_request_translated Sample.marshalJSON
    { Jsonrpc := "2.0", TypedId := some { Kind := pb.IDKind.ID_Num 42 },
      Method := "hello_world", Params := some [("name", Value.string "Bob")] }
    42 "\x7b\"name\":\"Bob\"\x7d" rfl (by decide) rfl

/-! ## The client: identifier round trip -/

namespace Client

/-- With enough fuel, `bitLenAux` counts the binary digits of a positive number. -/
theorem bitLenAux_spec (fuel : Nat) : ∀ n : Nat, n ≤ fuel → 0 < n →
    1 ≤ bitLenAux fuel n ∧ 2 ^ (bitLenAux fuel n - 1) ≤ n ∧ n < 2 ^ bitLenAux fuel n := by
  induction fuel with
  | zero => intro n h hpos; omega
  | succ f ih =>
    intro n h hpos
    have hne : n ≠ 0 := by omega
    simp only [bitLenAux, hne, if_false]
    by_cases h1 : n / 2 = 0
    · have hn1 : n = 1 := by omega
      subst hn1
      have : bitLenAux f (1 / 2) = 0 := by
        cases f <;> simp [bitLenAux]
      simp [this]
    · obtain ⟨hL, hlo, hhi⟩ := ih (n / 2) (by omega) (by omega)
      have e1 : 2 ^ (bitLenAux f (n / 2) + 1) = 2 * 2 ^ bitLenAux f (n / 2) := by
        rw [pow_succ]; ring
      have e2 : 2 ^ bitLenAux f (n / 2) = 2 * 2 ^ (bitLenAux f (n / 2) - 1) := by
        conv_lhs => rw [show bitLenAux f (n / 2) = (bitLenAux f (n / 2) - 1) + 1 by omega]
        rw [pow_succ]; ring
      refine ⟨by omega, ?_, ?_⟩
      · simp only [Nat.add_sub_cancel]
        omega
      · omega

/-- A positive `n` has `bitLen n` binary digits: `2 ^ (bitLen n - 1) ≤ n < 2 ^ bitLen n`. -/
theorem bitLen_spec (n : Nat) (hpos : 0 < n) :
    1 ≤ bitLen n ∧ 2 ^ (bitLen n - 1) ≤ n ∧ n < 2 ^ bitLen n :=
  bitLenAux_spec n n (Nat.le_refl n) hpos

theorem bitLen_le_53 (a : Nat) (hpos : 0 < a) (hlt : a < 2 ^ 53) : bitLen a ≤ 53 := by
  obtain ⟨hL, hlo, _⟩ := bitLen_spec a hpos
  by_contra hcon
  have : 2 ^ 53 ≤ 2 ^ (bitLen a - 1) := Nat.pow_le_pow_right (by decide) (by omega)
  omega

/-- The unit in the last place of the `float64` of a positive integer `a`. -/
theorem ulpExp_int (a : Nat) (hpos : 0 < a) : ulpExp a 1 = (bitLen a : Int) - 53 := by
  obtain ⟨hL, hlo, _⟩ := bitLen_spec a hpos
  have hb1 : bitLen 1 = 1 := by decide
  have hk : ((bitLen a : Int) - 1).toNat = bitLen a - 1 := by omega
  have hnot : ¬ a < 2 ^ (bitLen a - 1) := by omega
  have h0 : (0 : Int) ≤ (bitLen a : Int) - 1 := by omega
  unfold ulpExp
  simp only [hb1, Nat.cast_one, h0, if_true, hk, one_mul, hnot, decide_False,
    Bool.false_eq_true, if_false]
  omega

/-- An integer literal of fewer than 54 binary digits is parsed without rounding: its
digits are shifted to the top of the 53-bit significand. -/
theorem parseFloat64_int (n : Int) (hpos : 0 < n.natAbs) (hlt : n.natAbs < 2 ^ 53) :
    parseFloat64 { mant := n, exp := 0 } = Except.ok
      { neg := decide (n < 0), mant := n.natAbs * 2 ^ (53 - bitLen n.natAbs),
        exp := (bitLen n.natAbs : Int) - 53 } := by
  have hL53 : bitLen n.natAbs ≤ 53 := bitLen_le_53 _ hpos hlt
  have hneg : (-((bitLen n.natAbs : Int) - 53)).toNat = 53 - bitLen n.natAbs := by omega
  have hnon : ((bitLen n.natAbs : Int) - 53).toNat = 0 := by omega
  unfold parseFloat64
  simp only [le_refl, if_true, Int.toNat_zero, pow_zero, mul_one, ulpExp_int _ hpos, hneg, hnon]
  have hne : nearestEven (n.natAbs * 2 ^ (53 - bitLen n.natAbs)) 1
      = n.natAbs * 2 ^ (53 - bitLen n.natAbs) := by
    simp [nearestEven, Nat.mod_one]
  rw [hne, if_neg (by omega)]

/-- Converting that `float64` back with `int64(v)` gives the integer again. -/
theorem float64ToInt64_int (n : Int) (hpos : 0 < n.natAbs) (hlt : n.natAbs < 2 ^ 53) :
    float64ToInt64
      { neg := decide (n < 0), mant := n.natAbs * 2 ^ (53 - bitLen n.natAbs),
        exp := (bitLen n.natAbs : Int) - 53 } = n := by
  have hmag : (if (0 : Int) ≤ (bitLen n.natAbs : Int) - 53
      then n.natAbs * 2 ^ (53 - bitLen n.natAbs) * 2 ^ ((bitLen n.natAbs : Int) - 53).toNat
      else n.natAbs * 2 ^ (53 - bitLen n.natAbs)
        / 2 ^ (-((bitLen n.natAbs : Int) - 53)).toNat) = n.natAbs := by
    have hL53 : bitLen n.natAbs ≤ 53 := bitLen_le_53 _ hpos hlt
    split_ifs with h
    · have h1 : 53 - bitLen n.natAbs = 0 := by omega
      have h2 : ((bitLen n.natAbs : Int) - 53).toNat = 0 := by omega
      simp [h1, h2]
    · have h2 : (-((bitLen n.natAbs : Int) - 53)).toNat = 53 - bitLen n.natAbs := by omega
      rw [h2]
      exact Nat.mul_div_cancel _ (by positivity)
  unfold float64ToInt64
  simp only [hmag]
  by_cases hn : n < 0
  · simp only [hn, decide_True, if_true]
    rw [if_pos (by constructor <;> omega)]
    omega
  · simp only [hn, decide_False, Bool.false_eq_true, if_false]
    rw [if_pos (by constructor <;> omega)]
    omega

/-- The client's `getId` keeps an integer identifier of magnitude at most `2 ^ 53`. -/
theorem getId_int (n : Int) (hlo : -(2 : Int) ^ 53 ≤ n) (hhi : n ≤ (2 : Int) ^ 53) :
    getId (Line.object (some (JsonValue.number { mant := n, exp := 0 })))
      = Except.ok (some { Kind := pb.IDKind.ID_Num n }) := by
  by_cases h0 : n = 0
  · subst h0; rfl
  by_cases h1 : n = 2 ^ 53
  · subst h1; rfl
  by_cases h2 : n = -2 ^ 53
  · subst h2; rfl
  have hpos : 0 < n.natAbs := by omega
  have hlt : n.natAbs < 2 ^ 53 := by omega
  simp only [getId, jsonUnmarshal, parseFloat64_int n hpos hlt, float64ToInt64_int n hpos hlt]

/-- C9, counterexample: the integer identifier `2 ^ 53 + 1`, which a 64-bit identifier
holds, is decoded through a `float64` and sent as `2 ^ 53`. -/
theorem C9_id_above_2_pow_53_altered :
    getId (Line.object (some (JsonValue.number { mant := 9007199254740993, exp := 0 })))
      = Except.ok (some { Kind := pb.IDKind.ID_Num 9007199254740992 })
    ∧ getId (Line.object (some (JsonValue.number { mant := 9007199254740993, exp := 0 })))
      ≠ Except.ok (some { Kind := pb.IDKind.ID_Num 9007199254740993 }) := by
  have hrun : getId (Line.object (some (JsonValue.number
      { mant := 9007199254740993, exp := 0 })))
      = Except.ok (some { Kind := pb.IDKind.ID_Num 9007199254740992 }) := rfl
  refine ⟨hrun, ?_⟩
  rw [hrun]
  intro h
  injection h with h
  injection h with h
  injection h with h
  injection h with h
  omega

/-- C9, as amended: for every string `s`, and for every integer `n` with
`-2 ^ 53 ≤ n ≤ 2 ^ 53`, the client's `getId` yields the typed identifier of the same kind
and value for a line whose `id` is that string or that integer, and `parseResp` hands
`json.Marshal` the reply with its `id` field holding the string `s` as a Go string, or `n`
as a Go `int64`, and no typed identifier. -/
theorem C9_id_round_trip (jsonMarshal : respType → Go String) (m : pb.GenericJSONRPCMessage)
    (s : String) (n : Int) (hlo : -(2 : Int) ^ 53 ≤ n) (hhi : n ≤ (2 : Int) ^ 53) :
    (getId (Line.object (some (JsonValue.string s)))
        = Except.ok (some { Kind := pb.IDKind.ID_Str s })
      ∧ parseResp jsonMarshal { m with TypedId := some { Kind := pb.IDKind.ID_Str s } }
        = jsonMarshal (respType.string s { m with TypedId := none }))
    ∧ (getId (Line.object (some (JsonValue.number { mant := n, exp := 0 })))
        = Except.ok (some { Kind := pb.IDKind.ID_Num n })
      ∧ parseResp jsonMarshal { m with TypedId := some { Kind := pb.IDKind.ID_Num n } }
        = jsonMarshal (respType.int64 n { m with TypedId := none })) :=
  ⟨⟨rfl, rfl⟩, getId_int n hlo hhi, rfl⟩

/-- C9, witness: the line with `"id":1` is sent with identifier kind integer, value `1`,
and the reply with that identifier is printed with `"id":1`; the string identifier `abc`
is printed as a string. -/
theorem C9_id_round_trip_witness :
    (-(2 : Int) ^ 53 ≤ 1 ∧ (1 : Int) ≤ (2 : Int) ^ 53)
    ∧ getId (Line.object (some (JsonValue.number { mant := 1, exp := 0 })))
      = Except.ok (some { Kind := pb.IDKind.ID_Num 1 })
    ∧ parseResp Sample.marshalResp
        { Jsonrpc := "2.0", TypedId := some { Kind := pb.IDKind.ID_Num 1 }, Result := some [] }
      = Except.ok "\x7b\"id\":1,\"jsonrpc\":\"2.0\",\"result\":\x7b\x7d\x7d"
    ∧ parseResp Sample.marshalResp
        { Jsonrpc := "2.0", TypedId := some { Kind := pb.IDKind.ID_Str "abc" },
          Result := some [] }
      = Except.ok "\x7b\"id\":\"abc\",\"jsonrpc\":\"2.0\",\"result\":\x7b\x7d\x7d" :=
  ⟨by decide,
    (C9_id_round_trip Sample.marshalResp { Jsonrpc := "2.0", Result := some [] } "abc" 1
      (by decide) (by decide)).2.1,
    (C9_id_round_trip Sample.marshalResp { Jsonrpc := "2.0", Result := some [] } "abc" 1
      (by decide) (by decide)).2.2,
    (C9_id_round_trip Sample.marshalResp { Jsonrpc := "2.0", Result := some [] } "abc" 1
      (by decide) (by decide)).1.2⟩

end Client

/-! ## Inbound translation of parameters, mark3labs -/

/-- C11, the code on a notification: whatever parameter bag the wire message carries, the
host message that `ToJsonRpcMessage` builds has empty `NotificationParams`, so the text it
serialises is the same as for the notification without parameters. -/
theorem C11_notification_params_dropped (jsonMarshal : mcp.JSONRPCMessage → Go String)
    (params : Option Struct) :
    Mark3labs.ToJsonRpcMessage.tmp
        { Jsonrpc := "2.0", Method := "notifications/progress", Params := params }
      = Except.ok (mcp.JSONRPCMessage.notification
          { JSONRPC := "2.0",
            Notification :=
              { Method := "notifications/progress",
                Params := { Meta := none, AdditionalFields := none } } })
    ∧ Mark3labs.ToJsonRpcMessage jsonMarshal
        (some { Jsonrpc := "2.0", Method := "notifications/progress", Params := params })
      = Mark3labs.ToJsonRpcMessage jsonMarshal
        (some { Jsonrpc := "2.0", Method := "notifications/progress", Params := none }) := by
  constructor <;> rfl

/-! ## Failed receives in the session loops -/

/-- A failed step never leaves the loop waiting for a receive. -/
theorem Mark3labs.Outcome.ofFailure_ne_receiving (err : Failure) :
    Mark3labs.Outcome.ofFailure err ≠ Mark3labs.Outcome.receiving := by
  cases err <;> simp [Mark3labs.Outcome.ofFailure]

/-- The mark3labs loop over events that follow a prefix it has worked through: it goes on
from the engine state the prefix leaves, after the sends of the prefix. -/
theorem Mark3labs.session_append {σ : Type} (env : Mark3labs.Env σ)
    (pre : List Mark3labs.RecvEvent) : ∀ (st : σ) (tail : List Mark3labs.RecvEvent),
    (Mark3labs.Transport env st pre).outcome = Mark3labs.Outcome.receiving →
    Mark3labs.Transport env st (pre ++ tail)
        = { sent := (Mark3labs.Transport env st pre).sent
              ++ (Mark3labs.Transport env (Mark3labs.engineState env st pre) tail).sent,
            outcome := (Mark3labs.Transport env (Mark3labs.engineState env st pre) tail).outcome }
      ∧ Mark3labs.engineState env st (pre ++ tail)
        = Mark3labs.engineState env (Mark3labs.engineState env st pre) tail := by
  induction pre with
  | nil => intro st tail _; exact ⟨rfl, rfl⟩
  | cons ev pre ih =>
    intro st tail h
    cases ev with
    | eof => simp [Mark3labs.Transport] at h
    | error text => simp [Mark3labs.Transport] at h
    | message ms =>
      simp only [List.cons_append, Mark3labs.Transport, Mark3labs.engineState] at h ⊢
      cases h1 : Mark3labs.ToJsonRpcMessage env.jsonMarshal (some ms) with
      | error err =>
        simp only [h1] at h
        exact absurd h (Mark3labs.Outcome.ofFailure_ne_receiving err)
      | ok baseMsg =>
        simp only [h1] at h ⊢
        cases h2 : Mark3labs.FromJsonRpcMessage env.lib (env.HandleMessage st baseMsg).2
            ms.TypedId with
        | error err =>
          simp only [h2] at h
          exact absurd h (Mark3labs.Outcome.ofFailure_ne_receiving err)
        | ok pbmsg =>
          simp only [h2] at h ⊢
          cases h3 : env.Send pbmsg with
          | some er => simp [h3] at h
          | none =>
            simp only [h3] at h ⊢
            obtain ⟨hrun, hstate⟩ := ih (env.HandleMessage st baseMsg).1 tail h
            have happ : pre.append tail = pre ++ tail := rfl
            rw [happ, hrun, hstate]
            exact ⟨rfl, rfl⟩

/-- The metoro-io loop over events that follow a prefix it has worked through: it goes on
from the state the handler calls of the prefix leave. -/
theorem Metoro.loop_append {σ : Type} (marshalJSON : Option Struct → Go String)
    (t : Metoro.GrpcServerTransport σ) (send : pb.GenericJSONRPCMessage → Option String)
    (pre : List Mark3labs.RecvEvent) : ∀ (st : σ) (tail : List Mark3labs.RecvEvent),
    (t.Transport marshalJSON send st pre).2 = Mark3labs.Outcome.receiving →
    t.Transport marshalJSON send st (pre ++ tail)
      = t.Transport marshalJSON send (t.Transport marshalJSON send st pre).1 tail := by
  induction pre with
  | nil => intro st tail _; rfl
  | cons ev pre ih =>
    intro st tail h
    cases ev with
    | eof => simp [Metoro.GrpcServerTransport.Transport] at h
    | error text => simp [Metoro.GrpcServerTransport.Transport] at h
    | message ms =>
      simp only [List.cons_append, Metoro.GrpcServerTransport.Transport] at h ⊢
      cases h1 : Metoro.ToBaseJsonRpcMessage marshalJSON ms with
      | error err =>
        simp only [h1] at h
        exact absurd h (Mark3labs.Outcome.ofFailure_ne_receiving err)
      | ok baseMsg =>
        simp only [h1] at h ⊢
        cases h2 : t.callOnMessage
            (Metoro.WithValue Metoro.Background "stream" (Metoro.CtxValue.stream send))
            baseMsg st with
        | error err =>
          simp only [h2] at h
          exact absurd h (Mark3labs.Outcome.ofFailure_ne_receiving err)
        | ok st1 =>
          simp only [h2] at h ⊢
          exact ih st1 tail h

/-- C12: when a session loop has worked through the messages received so far and the next
receive fails, the loop returns at once: no error for end-of-stream, and the error of the
receive for any other failure. Nothing is sent and the handler is not called after that
receive: the sends are those made before it, and the state that the handler calls act on
is the one they left before it. This holds for `GrpcServer.Transport` and for
`GrpcServerTransport.Transport`. -/
theorem C12_failed_receive_ends_session {σ τ : Type}
    (env : Mark3labs.Env σ) (st : σ) (pre rest : List Mark3labs.RecvEvent)
    (marshalJSON : Option Struct → Go String) (t : Metoro.GrpcServerTransport τ)
    (send : pb.GenericJSONRPCMessage → Option String) (wt : τ)
    (pre' rest' : List Mark3labs.RecvEvent) (text : String)
    (hpre : (Mark3labs.Transport env st pre).outcome = Mark3labs.Outcome.receiving)
    (hpre' : (t.Transport marshalJSON send wt pre').2 = Mark3labs.Outcome.receiving) :
    (Mark3labs.Transport env st (pre ++ Mark3labs.RecvEvent.eof :: rest)
        = { sent := (Mark3labs.Transport env st pre).sent,
            outcome := Mark3labs.Outcome.returned none }
      ∧ Mark3labs.engineState env st (pre ++ Mark3labs.RecvEvent.eof :: rest)
        = Mark3labs.engineState env st pre
      ∧ Mark3labs.Transport env st (pre ++ Mark3labs.RecvEvent.error text :: rest)
        = { sent := (Mark3labs.Transport env st pre).sent,
            outcome := Mark3labs.Outcome.returned (some text) }
      ∧ Mark3labs.engineState env st (pre ++ Mark3labs.RecvEvent.error text :: rest)
        = Mark3labs.engineState env st pre)
    ∧ (t.Transport marshalJSON send wt (pre' ++ Mark3labs.RecvEvent.eof :: rest')
        = ((t.Transport marshalJSON send wt pre').1, Mark3labs.Outcome.returned none)
      ∧ t.Transport marshalJSON send wt (pre' ++ Mark3labs.RecvEvent.error text :: rest')
        = ((t.Transport marshalJSON send wt pre').1,
            Mark3labs.Outcome.returned (some text))) := by
  refine ⟨⟨?_, ?_, ?_, ?_⟩, ?_, ?_⟩
  · rw [(Mark3labs.session_append env pre st _ hpre).1]
    simp [Mark3labs.Transport]
  · rw [(Mark3labs.session_append env pre st _ hpre).2]
    rfl
  · rw [(Mark3labs.session_append env pre st _ hpre).1]
    simp [Mark3labs.Transport]
  · rw [(Mark3labs.session_append env pre st _ hpre).2]
    rfl
  · rw [Metoro.loop_append marshalJSON t send pre' wt _ hpre']
    rfl
  · rw [Metoro.loop_append marshalJSON t send pre' wt _ hpre']
    rfl

/-- C12, witness: a request is received and answered, then the receive fails. With
end-of-stream both loops return no error, with `connection reset` they return that error;
the one reply (mark3labs) and the one handler call are those of the request, and the
request that follows the failed receive is never handled. -/
theorem C12_failed_receive_ends_session_witness :
    (Mark3labs.Transport Sample.answeringEnv 0
        ([Mark3labs.RecvEvent.message Sample.toolsList]
          ++ Mark3labs.RecvEvent.eof :: [Mark3labs.RecvEvent.message Sample.toolsList])
        = { sent := [{ Jsonrpc := "2.0", TypedId := some { Kind := pb.IDKind.ID_Num 1 },
                       Result := some [("ok", Value.bool true)] }],
            outcome := Mark3labs.Outcome.returned none }
      ∧ Mark3labs.engineState Sample.answeringEnv 0
        ([Mark3labs.RecvEvent.message Sample.toolsList]
          ++ Mark3labs.RecvEvent.eof :: [Mark3labs.RecvEvent.message Sample.toolsList])
        = 1
      ∧ Mark3labs.Transport Sample.answeringEnv 0
        ([Mark3labs.RecvEvent.message Sample.toolsList]
          ++ Mark3labs.RecvEvent.error "connection reset"
            :: [Mark3labs.RecvEvent.message Sample.toolsList])
        = { sent := [{ Jsonrpc := "2.0", TypedId := some { Kind := pb.IDKind.ID_Num 1 },
                       Result := some [("ok", Value.bool true)] }],
            outcome := Mark3labs.Outcome.returned (some "connection reset") }
      ∧ Mark3labs.engineState Sample.answeringEnv 0
        ([Mark3labs.RecvEvent.message Sample.toolsList]
          ++ Mark3labs.RecvEvent.error "connection reset"
            :: [Mark3labs.RecvEvent.message Sample.toolsList])
        = 1)
    ∧ (Sample.loggingTransport.Transport Sample.marshalJSON (fun _ => none) []
        ([Mark3labs.RecvEvent.message Sample.toolsList]
          ++ Mark3labs.RecvEvent.eof :: [Mark3labs.RecvEvent.message Sample.toolsList])
        = (["request"], Mark3labs.Outcome.returned none)
      ∧ Sample.loggingTransport.Transport Sample.marshalJSON (fun _ => none) []
        ([Mark3labs.RecvEvent.message Sample.toolsList]
          ++ Mark3labs.RecvEvent.error "connection reset"
            :: [Mark3labs.RecvEvent.message Sample.toolsList])
        = (["request"], Mark3labs.Outcome.returned (some "connection reset"))) :=
  C12_failed_receive_ends_session Sample.answeringEnv 0
    [Mark3labs.RecvEvent.message Sample.toolsList]
    [Mark3labs.RecvEvent.message Sample.toolsList]
    Sample.marshalJSON Sample.loggingTransport (fun _ => none) []
    [Mark3labs.RecvEvent.message Sample.toolsList]
    [Mark3labs.RecvEvent.message Sample.toolsList] "connection reset" rfl rfl

/-! ## The client: `getId` by the type of the identifier -/

namespace Client

/-- On a line that is a JSON object and that `json.Unmarshal` decodes, `getId` returns the
string-kind identifier `s` when the `id` is the string `s`; no identifier and no error
when the object has no `id` or a null `id`; a returned error exactly when the `id` is a
boolean, an array or an object, and never a panic; and an integer-kind identifier only when
the `id` is a number. -/
theorem getId_by_id_type (id : Option JsonValue) (decoded : Option GoAny)
    (hparse : jsonUnmarshal (Line.object id) = Except.ok decoded) :
    (∀ s, id = some (JsonValue.string s) →
        getId (Line.object id) = Except.ok (some { Kind := pb.IDKind.ID_Str s }))
    ∧ (id = none ∨ id = some JsonValue.null → getId (Line.object id) = Except.ok none)
    ∧ ((∃ text, getId (Line.object id) = errorf text)
        ↔ ((∃ b, id = some (JsonValue.bool b)) ∨ (∃ shown, id = some (JsonValue.array shown))
            ∨ (∃ shown, id = some (JsonValue.object shown))))
    ∧ (∀ text, getId (Line.object id) ≠ Except.error (Failure.panic text))
    ∧ (∀ n, getId (Line.object id) = Except.ok (some { Kind := pb.IDKind.ID_Num n }) →
        ∃ lit, id = some (JsonValue.number lit)) := by
  refine ⟨?_, ?_, ?_, ?_, ?_⟩
  · rintro s rfl
    rfl
  · rintro (rfl | rfl) <;> rfl
  · cases id with
    | none => simp [getId, jsonUnmarshal, errorf]
    | some v =>
      cases v with
      | null => simp [getId, jsonUnmarshal, errorf]
      | string s => simp [getId, jsonUnmarshal, errorf]
      | number lit =>
        simp only [jsonUnmarshal] at hparse
        cases hf : parseFloat64 lit with
        | error err => simp [hf] at hparse
        | ok f => simp [getId, jsonUnmarshal, hf, errorf]
      | bool b => simp [getId, jsonUnmarshal, errorf]
      | array shown => simp [getId, jsonUnmarshal, errorf]
      | object shown => simp [getId, jsonUnmarshal, errorf]
  · intro text
    cases id with
    | none => simp [getId, jsonUnmarshal]
    | some v =>
      cases v with
      | null => simp [getId, jsonUnmarshal]
      | string s => simp [getId, jsonUnmarshal]
      | number lit =>
        simp only [jsonUnmarshal] at hparse
        cases hf : parseFloat64 lit with
        | error err => simp [hf] at hparse
        | ok f => simp [getId, jsonUnmarshal, hf]
      | bool b => simp [getId, jsonUnmarshal, errorf]
      | array shown => simp [getId, jsonUnmarshal, errorf]
      | object shown => simp [getId, jsonUnmarshal, errorf]
  · intro n hn
    cases id with
    | none => simp [getId, jsonUnmarshal] at hn
    | some v =>
      cases v with
      | number lit => exact ⟨lit, rfl⟩
      | null => simp [getId, jsonUnmarshal] at hn
      | string s => simp [getId, jsonUnmarshal] at hn
      | bool b => simp [getId, jsonUnmarshal, errorf] at hn
      | array shown => simp [getId, jsonUnmarshal, errorf] at hn
      | object shown => simp [getId, jsonUnmarshal, errorf] at hn

/-- C13, the code on the line `null`: `json.Unmarshal` decodes it without an error and
leaves the pointer `msg` nil, and `getId` then panics on `msg.ID`. It returns neither the
absent identifier nor an error. -/
theorem C13_null_line_panics :
    jsonUnmarshal Line.null = Except.ok none
    ∧ getId Line.null
      = Except.error (Failure.panic "invalid memory address or nil pointer dereference")
    ∧ getId Line.null ≠ Except.ok none
    ∧ (∀ text, getId Line.null ≠ errorf text) := by
  refine ⟨rfl, rfl, ?_, ?_⟩
  · simp [getId, jsonUnmarshal, nilDeref]
  · simp [getId, jsonUnmarshal, nilDeref, errorf]

end Client

/-! ## The metoro-io server object -/

/-- C15: `NewGrpcServerTransport` runs its options from left to right on the transport
with port 50051, empty host, no handlers and no gRPC options. With no options the port is
50051; `WithHost h` then `WithPort p` give host `h` and port `p`; of two equal options the
last one wins; and each option changes its own field only. -/
theorem C15_options_applied_in_order {σ : Type}
    (opts : List (Metoro.GrpcServerTransportOption σ)) (opt : Metoro.GrpcServerTransportOption σ)
    (t : Metoro.GrpcServerTransport σ) (h h' : String) (p p' : Int)
    (g : List Metoro.ServerOption) :
    (Metoro.NewGrpcServerTransport ([] : List (Metoro.GrpcServerTransportOption σ))
        = { onClose := none, onError := none, onMessage := none, host := "", port := 50051,
            grpcOpts := [] })
    ∧ Metoro.NewGrpcServerTransport (opt :: opts)
        = opts.foldl (fun srv o => o srv) (opt { port := 50051 })
    ∧ Metoro.NewGrpcServerTransport (opts ++ [opt]) = opt (Metoro.NewGrpcServerTransport opts)
    ∧ (Metoro.NewGrpcServerTransport [Metoro.WithHost h, Metoro.WithPort p]
        = ({ host := h, port := p } : Metoro.GrpcServerTransport σ))
    ∧ (Metoro.NewGrpcServerTransport [Metoro.WithHost h, Metoro.WithHost h']
        = ({ host := h', port := 50051 } : Metoro.GrpcServerTransport σ))
    ∧ (Metoro.NewGrpcServerTransport [Metoro.WithPort p, Metoro.WithPort p']
        = ({ port := p' } : Metoro.GrpcServerTransport σ))
    ∧ Metoro.WithHost h t = { t with host := h }
    ∧ Metoro.WithPort p t = { t with port := p }
    ∧ Metoro.WithGrpcOpts g t = { t with grpcOpts := g } := by
  refine ⟨rfl, rfl, ?_, rfl, rfl, rfl, rfl, rfl, rfl⟩
  simp [Metoro.NewGrpcServerTransport, List.foldl_append]

/-- C16: each of `SetCloseHandler`, `SetErrorHandler` and `SetMessageHandler` installs the
handler it is given, so that calling the handler afterwards runs it, and leaves every other
field of the transport as it was. -/
theorem C16_set_handler_frame {σ : Type} (t : Metoro.GrpcServerTransport σ)
    (closeHandler : Option (σ → σ)) (errorHandler : Option (String → σ → σ))
    (messageHandler : Option (Metoro.Context → BaseJsonRpcMessage → σ → σ))
    (onClose : σ → σ) (onError : String → σ → σ)
    (onMessage : Metoro.Context → BaseJsonRpcMessage → σ → σ)
    (st : σ) (err : String) (ctx : Metoro.Context) (message : BaseJsonRpcMessage) :
    (t.SetCloseHandler closeHandler = { t with onClose := closeHandler }
      ∧ (t.SetCloseHandler (some onClose)).callOnClose st = Except.ok (onClose st))
    ∧ (t.SetErrorHandler errorHandler = { t with onError := errorHandler }
      ∧ (t.SetErrorHandler (some onError)).callOnError err st = Except.ok (onError err st))
    ∧ (t.SetMessageHandler messageHandler = { t with onMessage := messageHandler }
      ∧ (t.SetMessageHandler (some onMessage)).callOnMessage ctx message st
        = Except.ok (onMessage ctx message st)) :=
  ⟨⟨rfl, rfl⟩, ⟨rfl, rfl⟩, ⟨rfl, rfl⟩⟩

/-! ## `Send` without a stream -/

/-- C17, the code on a context without a stream: when the context holds no value under the
key `stream`, or a value that is not a stream, the type assertion on what `ctx.Value`
returns panics, so `Send` sends nothing and does not return the error of the check that
follows, or any error. -/
theorem C17_send_without_stream_panics (lib : JsonLib) (sprint : BaseJsonRpcMessage → String)
    (ctx : Metoro.Context) (message : BaseJsonRpcMessage)
    (hctx : ∀ send, ctx "stream" ≠ some (Metoro.CtxValue.stream send)) :
    (Metoro.Send lib sprint ctx message).sent = []
    ∧ (∃ text, (Metoro.Send lib sprint ctx message).result = Except.error (Failure.panic text))
    ∧ (∀ text, (Metoro.Send lib sprint ctx message).result ≠ errorf text) := by
  cases hvalue : ctx "stream" with
  | none => simp [Metoro.Send, hvalue, errorf]
  | some value =>
    cases value with
    | stream send => exact absurd hvalue (hctx send)
    | other typeName => simp [Metoro.Send, hvalue, errorf]

/-- C17, witness: `Send` on `context.Background()`. -/
theorem C17_send_without_stream_panics_witness :
    (Metoro.Send Sample.lib (fun message => message.Type_) Metoro.Background
        { Type_ := BaseMessageTypeJSONRPCNotificationType,
          JsonRpcNotification := some
            { Jsonrpc := "2.0", Method := "notifications/progress", Params := "\x7b\x7d" } }).sent
      = []
    ∧ (∃ text, (Metoro.Send Sample.lib (fun message => message.Type_) Metoro.Background
        { Type_ := BaseMessageTypeJSONRPCNotificationType,
          JsonRpcNotification := some
            { Jsonrpc := "2.0", Method := "notifications/progress", Params := "\x7b\x7d" } }).result
      = Except.error (Failure.panic text))
    ∧ (∀ text, (Metoro.Send Sample.lib (fun message => message.Type_) Metoro.Background
        { Type_ := BaseMessageTypeJSONRPCNotificationType,
          JsonRpcNotification := some
            { Jsonrpc := "2.0", Method := "notifications/progress", Params := "\x7b\x7d" } }).result
      ≠ errorf text) :=
  C17_send_without_stream_panics Sample.lib (fun message => message.Type_) Metoro.Background
    { Type_ := BaseMessageTypeJSONRPCNotificationType,
      JsonRpcNotification := some
        { Jsonrpc := "2.0", Method := "notifications/progress", Params := "\x7b\x7d" } }
    (fun _ h => Option.noConfusion h)

/-! ## Round trip through the metoro-io translators -/

/-- C18: when a wire message with an integer identifier, or with no identifier, is
translated by `ToBaseJsonRpcMessage` and the result is translated back by
`ToGenericRpcMessage`, the wire message that comes back has the same protocol version, the
same identifier (for a notification, none again), the same method and the same
classification under `GetMessageType`. -/
theorem C18_metoro_round_trip (marshalJSON : Option Struct → Go String) (lib : JsonLib)
    (m : pb.GenericJSONRPCMessage) (n : Int) (b : BaseJsonRpcMessage)
    (m' : pb.GenericJSONRPCMessage)
    (hid : m.TypedId = some { Kind := pb.IDKind.ID_Num n } ∨ m.TypedId = none)
    (hin : Metoro.ToBaseJsonRpcMessage marshalJSON m = Except.ok b)
    (hout : Metoro.ToGenericRpcMessage lib b = Except.ok m') :
    m'.Jsonrpc = m.Jsonrpc ∧ m'.TypedId = m.TypedId ∧ m'.Method = m.Method
    ∧ Metoro.GetMessageType m' = Metoro.GetMessageType m := by
  obtain ⟨jsonrpc, typedId, method, params, result, error⟩ := m
  simp only at hid
  by_cases hm : method = ""
  · rcases hid with rfl | rfl
    · cases result with
      | some r =>
        simp only [Metoro.ToBaseJsonRpcMessage, Metoro.GetMessageType, hm, pb.GetKind] at hin
        simp [BaseMessageTypeJSONRPCResponseType, BaseMessageTypeJSONRPCRequestType,
          BaseMessageTypeJSONRPCNotificationType] at hin
        split at hin
        · cases hin
        · cases hin
          simp only [Metoro.ToGenericRpcMessage] at hout
          simp [BaseMessageTypeJSONRPCResponseType, BaseMessageTypeJSONRPCRequestType] at hout
          split at hout
          · cases hout
          · cases hout
            simp [Metoro.GetMessageType, hm]
      | none =>
        cases error with
        | some e =>
          simp only [Metoro.ToBaseJsonRpcMessage, Metoro.GetMessageType, hm, pb.GetKind] at hin
          simp [BaseMessageTypeJSONRPCResponseType, BaseMessageTypeJSONRPCRequestType,
            BaseMessageTypeJSONRPCNotificationType, BaseMessageTypeJSONRPCErrorType] at hin
          cases hin
          simp only [Metoro.ToGenericRpcMessage] at hout
          simp [BaseMessageTypeJSONRPCResponseType, BaseMessageTypeJSONRPCRequestType,
            BaseMessageTypeJSONRPCNotificationType, BaseMessageTypeJSONRPCErrorType] at hout
          cases hout
          simp [Metoro.GetMessageType, hm]
        | none =>
          simp [Metoro.ToBaseJsonRpcMessage, Metoro.GetMessageType, hm, errorf] at hin
    · simp [Metoro.ToBaseJsonRpcMessage, Metoro.GetMessageType, hm, errorf] at hin
  · rcases hid with rfl | rfl
    · simp only [Metoro.ToBaseJsonRpcMessage, Metoro.GetMessageType, pb.GetKind] at hin
      simp [hm, BaseMessageTypeJSONRPCRequestType] at hin
      split at hin
      · cases hin
      · cases hin
        simp only [Metoro.ToGenericRpcMessage] at hout
        simp [BaseMessageTypeJSONRPCRequestType] at hout
        split at hout
        · cases hout
        · cases hout
          simp [Metoro.GetMessageType, hm]
    · simp only [Metoro.ToBaseJsonRpcMessage, Metoro.GetMessageType, pb.GetKind] at hin
      simp [hm, BaseMessageTypeJSONRPCRequestType, BaseMessageTypeJSONRPCNotificationType]
        at hin
      split at hin
      · cases hin
      · cases hin
        simp only [Metoro.ToGenericRpcMessage] at hout
        simp [BaseMessageTypeJSONRPCRequestType, BaseMessageTypeJSONRPCNotificationType,
          BaseMessageTypeJSONRPCResponseType] at hout
        split at hout
        · cases hout
        · cases hout
          simp [Metoro.GetMessageType, hm]

/-- C18, witness: the request `hello_world` with identifier `42` goes in and comes back
with version `2.0`, identifier kind integer value `42`, the same method, as a Request. -/
theorem C18_metoro_round_trip_witness :
    (Metoro.ToBaseJsonRpcMessage Sample.marshalJSON
        { Jsonrpc := "2.0", TypedId := some { Kind := pb.IDKind.ID_Num 42 },
          Method := "hello_world", Params := some [("name", Value.string "Bob")] }
      = Except.ok
        { Type_ := BaseMessageTypeJSONRPCRequestType,
          JsonRpcRequest := some
            { Jsonrpc := "2.0", Id := 42, Method := "hello_world",
              Params := "\x7b\"name\":\"Bob\"\x7d" } }
      ∧ Metoro.ToGenericRpcMessage Sample.lib
        { Type_ := BaseMessageTypeJSONRPCRequestType,
          JsonRpcRequest := some
            { Jsonrpc := "2.0", Id := 42, Method := "hello_world",
              Params := "\x7b\"name\":\"Bob\"\x7d" } }
      = Except.ok
        { Jsonrpc := "2.0", TypedId := some { Kind := pb.IDKind.ID_Num 42 },
          Method := "hello_world", Params := some [("name", Value.string "Bob")] })
    ∧ Metoro.GetMessageType
        { Jsonrpc := "2.0", TypedId := some { Kind := pb.IDKind.ID_Num 42 },
          Method := "hello_world", Params := some [("name", Value.string "Bob")] }
      = Except.ok BaseMessageTypeJSONRPCRequestType :=
  ⟨⟨rfl, rfl⟩,
    (C18_metoro_round_trip Sample.marshalJSON Sample.lib
      { Jsonrpc := "2.0", TypedId := some { Kind := pb.IDKind.ID_Num 42 },
        Method := "hello_world", Params := some [("name", Value.string "Bob")] }
      42
      { Type_ := BaseMessageTypeJSONRPCRequestType,
        JsonRpcRequest := some
          { Jsonrpc := "2.0", Id := 42, Method := "hello_world",
            Params := "\x7b\"name\":\"Bob\"\x7d" } }
      { Jsonrpc := "2.0", TypedId := some { Kind := pb.IDKind.ID_Num 42 },
        Method := "hello_world", Params := some [("name", Value.string "Bob")] }
      (Or.inl rfl) rfl rfl).2.2.2.trans rfl⟩

/-! ## The client: replies without a typed identifier -/

namespace Client

/-- C19: for a message whose identifier is absent or has no kind set, `parseResp` returns
an error and no line, and the client's receive loop prints nothing for it and goes on;
`parseResp` returns a line only for a message with a string or an integer identifier. -/
theorem C19_untyped_reply_dropped (jsonMarshal : respType → Go String)
    (m : pb.GenericJSONRPCMessage) (rest : List Mark3labs.RecvEvent)
    (hid : m.TypedId = none ∨ m.TypedId = some { Kind := pb.IDKind.unset }) :
    parseResp jsonMarshal m
      = errorf "unsupported \x27id\x27 type in response: \x27<nil>:<nil>\x27"
    ∧ inboundFlow jsonMarshal (Mark3labs.RecvEvent.message m :: rest)
      = inboundFlow jsonMarshal rest
    ∧ (∀ (m₁ : pb.GenericJSONRPCMessage) (line : String),
        parseResp jsonMarshal m₁ = Except.ok line →
        (∃ s, m₁.TypedId = some { Kind := pb.IDKind.ID_Str s })
          ∨ (∃ n, m₁.TypedId = some { Kind := pb.IDKind.ID_Num n })) := by
  have hfail : parseResp jsonMarshal m
      = errorf "unsupported \x27id\x27 type in response: \x27<nil>:<nil>\x27" := by
    rcases hid with h | h <;> simp [parseResp, h, pb.GetKind]
  refine ⟨hfail, ?_, ?_⟩
  · simp [inboundFlow, hfail, errorf]
  · intro m₁ line hline
    obtain ⟨jsonrpc, typedId, method, params, result, error⟩ := m₁
    cases typedId with
    | none => simp [parseResp, pb.GetKind, errorf] at hline
    | some id =>
      obtain ⟨kind⟩ := id
      cases kind with
      | unset => simp [parseResp, pb.GetKind, errorf] at hline
      | ID_Str s => exact Or.inl ⟨s, rfl⟩
      | ID_Num n => exact Or.inr ⟨n, rfl⟩

/-- C19, witness: a notification from the server, then a reply with identifier `1`; only
the reply is printed. -/
theorem C19_untyped_reply_dropped_witness :
    parseResp Sample.marshalResp { Jsonrpc := "2.0", Method := "notifications/progress" }
      = errorf "unsupported \x27id\x27 type in response: \x27<nil>:<nil>\x27"
    ∧ inboundFlow Sample.marshalResp
        [Mark3labs.RecvEvent.message { Jsonrpc := "2.0", Method := "notifications/progress" },
          Mark3labs.RecvEvent.message
            { Jsonrpc := "2.0", TypedId := some { Kind := pb.IDKind.ID_Num 1 },
              Result := some [] },
          Mark3labs.RecvEvent.eof]
      = ["\x7b\"id\":1,\"jsonrpc\":\"2.0\",\"result\":\x7b\x7d\x7d"] :=
  ⟨(C19_untyped_reply_dropped Sample.marshalResp
      { Jsonrpc := "2.0", Method := "notifications/progress" } [] (Or.inl rfl)).1,
    (C19_untyped_reply_dropped Sample.marshalResp
      { Jsonrpc := "2.0", Method := "notifications/progress" }
      [Mark3labs.RecvEvent.message
          { Jsonrpc := "2.0", TypedId := some { Kind := pb.IDKind.ID_Num 1 },
            Result := some [] },
        Mark3labs.RecvEvent.eof] (Or.inl rfl)).2.1.trans rfl⟩

end Client

/-! ## The client: numeric identifiers -/

namespace Client

/-- The bounds of `bitLen_spec` as powers of two in the rationals. -/
theorem bitLen_zpow (n : Nat) (hpos : 0 < n) :
    (2 : ℚ) ^ ((bitLen n : Int) - 1) ≤ (n : ℚ) ∧ (n : ℚ) < (2 : ℚ) ^ (bitLen n : Int) := by
  obtain ⟨hL, hlo, hhi⟩ := bitLen_spec n hpos
  constructor
  · have h1 : ((bitLen n : Int) - 1) = ((bitLen n - 1 : Nat) : Int) := by omega
    rw [h1, zpow_natCast]
    exact_mod_cast hlo
  · rw [zpow_natCast]
    exact_mod_cast hhi


/-- A power of two with a non-negative integer exponent, as a natural number. -/
theorem two_zpow_toNat (k : Int) (hk : 0 ≤ k) : ((2 ^ k.toNat : Nat) : ℚ) = (2 : ℚ) ^ k := by
  have h : k = ((k.toNat : Nat) : Int) := (Int.toNat_of_nonneg hk).symm
  conv_rhs => rw [h, zpow_natCast]
  push_cast
  rfl

/-- The comparison that `ulpExp` makes decides whether `a / b` lies below `2 ^ k`. -/
theorem below_iff (a b : Nat) (hb : 0 < b) (k : Int) :
    (if 0 ≤ k then decide (a < b * 2 ^ k.toNat) else decide (a * 2 ^ (-k).toNat < b))
      = decide ((a : ℚ) / b < (2 : ℚ) ^ k) := by
  have hbq : (0 : ℚ) < b := by exact_mod_cast hb
  by_cases hk : 0 ≤ k
  · rw [if_pos hk]
    apply decide_eq_decide.mpr
    rw [div_lt_iff₀ hbq, ← two_zpow_toNat k hk]
    constructor
    · intro h
      have : ((a : Nat) : ℚ) < ((b * 2 ^ k.toNat : Nat) : ℚ) := by exact_mod_cast h
      push_cast at this ⊢
      linarith
    · intro h
      have : ((a : Nat) : ℚ) < ((b * 2 ^ k.toNat : Nat) : ℚ) := by
        push_cast at h ⊢
        linarith
      exact_mod_cast this
  · rw [if_neg hk]
    apply decide_eq_decide.mpr
    have hk' : 0 ≤ -k := by omega
    have hpow : (2 : ℚ) ^ k = (((2 ^ (-k).toNat : Nat) : ℚ))⁻¹ := by
      rw [two_zpow_toNat (-k) hk', zpow_neg, inv_inv]
    have hpos : (0 : ℚ) < ((2 ^ (-k).toNat : Nat) : ℚ) := by positivity
    rw [div_lt_iff₀ hbq, hpow]
    constructor
    · intro h
      have h1 : ((a * 2 ^ (-k).toNat : Nat) : ℚ) < (b : ℚ) := by exact_mod_cast h
      rw [Nat.cast_mul] at h1
      rw [inv_mul_eq_div, lt_div_iff₀ hpos]
      exact h1
    · intro h
      rw [inv_mul_eq_div, lt_div_iff₀ hpos] at h
      have h1 : ((a * 2 ^ (-k).toNat : Nat) : ℚ) < (b : ℚ) := by
        rw [Nat.cast_mul]; exact h
      exact_mod_cast h1

/-- The exponent `ulpExp a b` is `l - 52`, or `-1074` if that is larger, for the `l` with
`2 ^ l ≤ a / b < 2 ^ (l + 1)`. -/
theorem ulpExp_spec (a b : Nat) (ha : 0 < a) (hb : 0 < b) :
    ∃ l : Int, ulpExp a b = max (l - 52) (-1074)
      ∧ (2 : ℚ) ^ l ≤ (a : ℚ) / b ∧ (a : ℚ) / b < (2 : ℚ) ^ (l + 1) := by
  obtain ⟨halo, hahi⟩ := bitLen_zpow a ha
  obtain ⟨hblo, hbhi⟩ := bitLen_zpow b hb
  have hbq : (0 : ℚ) < b := by exact_mod_cast hb
  have h2 : (2 : ℚ) ≠ 0 := by norm_num
  have hdef : ulpExp a b
      = max ((if decide ((a : ℚ) / b < (2 : ℚ) ^ ((bitLen a : Int) - (bitLen b : Int))) = true
          then (bitLen a : Int) - (bitLen b : Int) - 1
          else (bitLen a : Int) - (bitLen b : Int)) - 52) (-1074) := by
    unfold ulpExp
    simp only [below_iff a b hb]
  by_cases hlt : (a : ℚ) / b < (2 : ℚ) ^ ((bitLen a : Int) - (bitLen b : Int))
  · refine ⟨(bitLen a : Int) - (bitLen b : Int) - 1, ?_, ?_, ?_⟩
    · rw [hdef]; simp [hlt]
    · rw [le_div_iff₀ hbq]
      calc (2 : ℚ) ^ ((bitLen a : Int) - (bitLen b : Int) - 1) * b
          ≤ (2 : ℚ) ^ ((bitLen a : Int) - (bitLen b : Int) - 1) * (2 : ℚ) ^ (bitLen b : Int) :=
            mul_le_mul_of_nonneg_left hbhi.le (by positivity)
        _ = (2 : ℚ) ^ ((bitLen a : Int) - 1) := by
            rw [← zpow_add₀ h2]; congr 1; ring
        _ ≤ a := halo
    · have : (bitLen a : Int) - (bitLen b : Int) - 1 + 1 = (bitLen a : Int) - (bitLen b : Int) := by
        ring
      rw [this]; exact hlt
  · refine ⟨(bitLen a : Int) - (bitLen b : Int), ?_, ?_, ?_⟩
    · rw [hdef]; simp [hlt]
    · exact not_lt.mp hlt
    · rw [div_lt_iff₀ hbq]
      calc (a : ℚ) < (2 : ℚ) ^ (bitLen a : Int) := hahi
        _ = (2 : ℚ) ^ ((bitLen a : Int) - (bitLen b : Int) + 1) * (2 : ℚ) ^ ((bitLen b : Int) - 1) := by
            rw [← zpow_add₀ h2]; congr 1; ring
        _ ≤ (2 : ℚ) ^ ((bitLen a : Int) - (bitLen b : Int) + 1) * b :=
            mul_le_mul_of_nonneg_left hblo (by positivity)


/-- The integer part that `float64ToInt64` computes for `N * 2 ^ e`, when that is `a / b`. -/
theorem floor_exact (N a b : Nat) (e : Int) (hb : 0 < b)
    (hex : (N : ℚ) * (2 : ℚ) ^ e = (a : ℚ) / b) :
    (if 0 ≤ e then N * 2 ^ e.toNat else N / 2 ^ (-e).toNat) = a / b := by
  have hbq : (0 : ℚ) < b := by exact_mod_cast hb
  by_cases he : 0 ≤ e
  · rw [if_pos he]
    rw [← two_zpow_toNat e he, eq_div_iff hbq.ne'] at hex
    have hnat : N * 2 ^ e.toNat * b = a := by exact_mod_cast hex
    rw [← hnat, Nat.mul_div_cancel _ hb]
  · rw [if_neg he]
    have he' : 0 ≤ -e := by omega
    have hpos : (0 : ℚ) < ((2 ^ (-e).toNat : Nat) : ℚ) := by positivity
    have hpow : (2 : ℚ) ^ e = (((2 ^ (-e).toNat : Nat) : ℚ))⁻¹ := by
      rw [two_zpow_toNat (-e) he', zpow_neg, inv_inv]
    rw [hpow, ← div_eq_mul_inv, div_eq_div_iff hpos.ne' hbq.ne'] at hex
    have hnat : N * b = a * 2 ^ (-e).toNat := by exact_mod_cast hex
    have hs : 0 < 2 ^ (-e).toNat := by positivity
    calc N / 2 ^ (-e).toNat = (N * b) / (2 ^ (-e).toNat * b) :=
          (Nat.mul_div_mul_right N (2 ^ (-e).toNat) hb).symm
      _ = (a * 2 ^ (-e).toNat) / (b * 2 ^ (-e).toNat) := by rw [hnat, Nat.mul_comm b]
      _ = a / b := Nat.mul_div_mul_right a b hs


/-- An exact quotient is not rounded. -/
theorem nearestEven_mul (N B : Nat) (hB : 0 < B) : nearestEven (N * B) B = N := by
  unfold nearestEven
  simp only [Nat.mul_div_cancel _ hB, Nat.mul_mod_left, Nat.mul_zero]
  rw [if_pos hB]

/-- A positive value `a / b` below `2 ^ 63` that is a `float64`, `M * 2 ^ E` with
`M < 2 ^ 53` and `-1074 ≤ E`, is decoded without rounding. -/
theorem round_exact (a b M : Nat) (E : Int) (ha : 0 < a) (hb : 0 < b) (hM : M < 2 ^ 53)
    (hE : -1074 ≤ E) (hrep : (a : ℚ) / b = (M : ℚ) * (2 : ℚ) ^ E) (hrange : a < 2 ^ 63 * b) :
    ulpExp a b ≤ 10
    ∧ ((nearestEven (a * 2 ^ (-(ulpExp a b)).toNat) (b * 2 ^ (ulpExp a b).toNat) : Nat) : ℚ)
        * (2 : ℚ) ^ (ulpExp a b) = (a : ℚ) / b := by
  obtain ⟨l, hl, hlo, hhi⟩ := ulpExp_spec a b ha hb
  have hbq : (0 : ℚ) < b := by exact_mod_cast hb
  have h2 : (2 : ℚ) ≠ 0 := by norm_num
  have h12 : (1 : ℚ) ≤ 2 := by norm_num
  have hq63 : (a : ℚ) / b < (2 : ℚ) ^ (63 : Int) := by
    rw [div_lt_iff₀ hbq]
    have : ((a : Nat) : ℚ) < ((2 ^ 63 * b : Nat) : ℚ) := by exact_mod_cast hrange
    rw [Nat.cast_mul, Nat.cast_pow] at this
    have e63 : (2 : ℚ) ^ (63 : Int) = ((2 : Nat) : ℚ) ^ 63 := by norm_num
    rw [e63]
    exact this
  have hl63 : l < 63 := by
    by_contra hcon
    have : (2 : ℚ) ^ (63 : Int) ≤ (2 : ℚ) ^ l := zpow_le_zpow_right₀ h12 (by omega)
    linarith
  have hMq : (M : ℚ) < (2 : ℚ) ^ (53 : Int) := by
    have : ((M : Nat) : ℚ) < ((2 ^ 53 : Nat) : ℚ) := by exact_mod_cast hM
    rw [Nat.cast_pow] at this
    have e53 : (2 : ℚ) ^ (53 : Int) = ((2 : Nat) : ℚ) ^ 53 := by norm_num
    rw [e53]
    exact this
  have hlE : l - 52 ≤ E := by
    by_contra hcon
    have h1 : (2 : ℚ) ^ (E + 53) ≤ (2 : ℚ) ^ l := zpow_le_zpow_right₀ h12 (by omega)
    have h3 : (M : ℚ) * (2 : ℚ) ^ E < (2 : ℚ) ^ (E + 53) := by
      rw [zpow_add₀ h2, mul_comm ((2 : ℚ) ^ E)]
      exact mul_lt_mul_of_pos_right hMq (by positivity)
    linarith
  have heE : ulpExp a b ≤ E := by rw [hl]; exact max_le hlE hE
  have he10 : ulpExp a b ≤ 10 := by rw [hl]; exact max_le (by omega) (by norm_num)
  refine ⟨he10, ?_⟩
  generalize ulpExp a b = e at heE he10 ⊢
  have hPQ : ((2 ^ (-e).toNat : Nat) : ℚ) = ((2 ^ e.toNat : Nat) : ℚ) * (2 : ℚ) ^ (-e) := by
    by_cases he : 0 ≤ e
    · have h0 : (-e).toNat = 0 := by omega
      rw [h0, two_zpow_toNat e he, ← zpow_add₀ h2]
      simp
    · have h0 : e.toNat = 0 := by omega
      rw [h0, two_zpow_toNat (-e) (by omega)]
      simp
  have hN : ((M * 2 ^ (E - e).toNat : Nat) : ℚ) = (M : ℚ) * (2 : ℚ) ^ (E - e) := by
    rw [Nat.cast_mul, two_zpow_toNat (E - e) (by omega)]
  have haq : (a : ℚ) = (M : ℚ) * (2 : ℚ) ^ E * b := by
    rw [← hrep, div_mul_cancel₀ _ hbq.ne']
  have hkey : a * 2 ^ (-e).toNat = (M * 2 ^ (E - e).toNat) * (b * 2 ^ e.toNat) := by
    have : ((a * 2 ^ (-e).toNat : Nat) : ℚ)
        = (((M * 2 ^ (E - e).toNat) * (b * 2 ^ e.toNat) : Nat) : ℚ) := by
      rw [Nat.cast_mul, Nat.cast_mul (M * 2 ^ (E - e).toNat), hN, hPQ, haq, Nat.cast_mul b,
        sub_eq_add_neg, zpow_add₀ h2]
      ring
    exact_mod_cast this
  have hB : 0 < b * 2 ^ e.toNat := by positivity
  rw [hkey, nearestEven_mul _ _ hB, hN, hrep, mul_assoc, ← zpow_add₀ h2]
  congr 2
  ring


/-- The denominator of a literal is positive. -/
theorem magnitude_pos (lit : JsonNumber) : 0 < lit.magnitude.2 := by
  unfold JsonNumber.magnitude
  split_ifs
  · exact Nat.one_pos
  · positivity

/-- The function `parseFloat64` in terms of the magnitude of the literal. -/
theorem parseFloat64_eq (lit : JsonNumber) :
    parseFloat64 lit =
      if 971 < ulpExp lit.magnitude.1 lit.magnitude.2
          ∨ (ulpExp lit.magnitude.1 lit.magnitude.2 = 971
            ∧ nearestEven
                (lit.magnitude.1 * 2 ^ (-(ulpExp lit.magnitude.1 lit.magnitude.2)).toNat)
                (lit.magnitude.2 * 2 ^ (ulpExp lit.magnitude.1 lit.magnitude.2).toNat) = 2 ^ 53)
      then errorf "json: cannot unmarshal number into Go value of type float64"
      else Except.ok
        { neg := decide (lit.mant < 0),
          mant := nearestEven
            (lit.magnitude.1 * 2 ^ (-(ulpExp lit.magnitude.1 lit.magnitude.2)).toNat)
            (lit.magnitude.2 * 2 ^ (ulpExp lit.magnitude.1 lit.magnitude.2).toNat),
          exp := ulpExp lit.magnitude.1 lit.magnitude.2 } := by
  unfold parseFloat64 JsonNumber.magnitude
  by_cases h : 0 ≤ lit.exp <;> simp only [h, if_true, if_false]

/-- The conversion `int64(v)` of a `float64` that equals `a / b`, below `2 ^ 63`. -/
theorem float64ToInt64_exact (neg : Bool) (m a b : Nat) (e : Int) (hb : 0 < b)
    (hex : (m : ℚ) * (2 : ℚ) ^ e = (a : ℚ) / b) (hrange : a < 2 ^ 63 * b) :
    float64ToInt64 { neg := neg, mant := m, exp := e }
      = if neg then -((a / b : Nat) : Int) else ((a / b : Nat) : Int) := by
  have hdiv : a / b < 2 ^ 63 := Nat.div_lt_of_lt_mul (by rw [Nat.mul_comm]; exact hrange)
  unfold float64ToInt64
  simp only [floor_exact m a b e hb hex]
  generalize a / b = q at hdiv
  cases neg
  · simp only [Bool.false_eq_true, if_false]
    rw [if_pos (by constructor <;> omega)]
  · simp only [if_true]
    rw [if_pos (by constructor <;> omega)]

/-- Zero is decoded with a non-positive exponent. -/
theorem ulpExp_zero (b : Nat) : ulpExp 0 b ≤ 0 := by
  have h0 : bitLen 0 = 0 := by decide
  unfold ulpExp
  simp only [h0]
  split_ifs <;> omega

/-- On a number that is a `float64` and lies within the range of `int64`, `getId` returns
the value truncated toward zero. -/
theorem getId_exact (lit : JsonNumber) (M : Nat) (E : Int) (hM : M < 2 ^ 53)
    (hE : -1074 ≤ E)
    (hrep : (lit.magnitude.1 : ℚ) / lit.magnitude.2 = (M : ℚ) * (2 : ℚ) ^ E)
    (hrange : lit.magnitude.1 < 2 ^ 63 * lit.magnitude.2) :
    getId (Line.object (some (JsonValue.number lit)))
      = Except.ok (some { Kind := pb.IDKind.ID_Num lit.trunc }) := by
  have hb := magnitude_pos lit
  have hfacts : ulpExp lit.magnitude.1 lit.magnitude.2 ≤ 10
      ∧ ((nearestEven
            (lit.magnitude.1 * 2 ^ (-(ulpExp lit.magnitude.1 lit.magnitude.2)).toNat)
            (lit.magnitude.2 * 2 ^ (ulpExp lit.magnitude.1 lit.magnitude.2).toNat) : Nat) : ℚ)
          * (2 : ℚ) ^ (ulpExp lit.magnitude.1 lit.magnitude.2)
        = (lit.magnitude.1 : ℚ) / lit.magnitude.2 := by
    by_cases ha : lit.magnitude.1 = 0
    · have he := ulpExp_zero lit.magnitude.2
      rw [ha]
      refine ⟨by omega, ?_⟩
      have hz : ∀ B : Nat, 0 < B → nearestEven 0 B = 0 := fun B hB => by
        simpa using nearestEven_mul 0 B hB
      rw [Nat.zero_mul, hz _ (Nat.mul_pos hb (by positivity))]
      simp
    · exact round_exact lit.magnitude.1 lit.magnitude.2 M E
        (Nat.pos_of_ne_zero ha) hb hM hE hrep hrange
  obtain ⟨he10, hex⟩ := hfacts
  have hparse := parseFloat64_eq lit
  rw [if_neg (by omega)] at hparse
  have hint := float64ToInt64_exact (decide (lit.mant < 0)) _ lit.magnitude.1 lit.magnitude.2 _
    hb hex hrange
  simp only [getId, jsonUnmarshal, hparse, hint, JsonNumber.trunc, decide_eq_true_eq]

/-- The result of `nearestEven` is within one half of `A / B`. -/
theorem nearestEven_spec (A B : Nat) (hB : 0 < B) :
    2 * (nearestEven A B * B) ≤ 2 * A + B ∧ 2 * A ≤ 2 * (nearestEven A B * B) + B := by
  have hA : A = B * (A / B) + A % B := (Nat.div_add_mod A B).symm
  have hr : A % B < B := Nat.mod_lt A hB
  have hcomm : A / B * B = B * (A / B) := Nat.mul_comm _ _
  have hsucc : (A / B + 1) * B = B * (A / B) + B := by ring
  unfold nearestEven
  simp only
  split_ifs with h1 h2 h3
  · rw [hcomm]; constructor <;> omega
  · rw [hsucc]; constructor <;> omega
  · rw [hcomm]; constructor <;> omega
  · rw [hsucc]; constructor <;> omega

/-- The conversion `int64(v)` of a `float64` with a non-positive exponent, below `2 ^ 63`:
the significand shifted right. -/
theorem float64ToInt64_small (neg : Bool) (m : Nat) (e : Int) (he : e ≤ 0)
    (hmag : m / 2 ^ (-e).toNat < 2 ^ 63) :
    float64ToInt64 { neg := neg, mant := m, exp := e }
      = if neg then -((m / 2 ^ (-e).toNat : Nat) : Int) else ((m / 2 ^ (-e).toNat : Nat) : Int) := by
  have hsame : (if 0 ≤ e then m * 2 ^ e.toNat else m / 2 ^ (-e).toNat) = m / 2 ^ (-e).toNat := by
    split_ifs with h
    · have h0 : e = 0 := by omega
      subst h0
      simp
    · rfl
  unfold float64ToInt64
  simp only [hsame]
  generalize m / 2 ^ (-e).toNat = q at hmag
  cases neg
  · simp only [Bool.false_eq_true, if_false]
    rw [if_pos (by constructor <;> omega)]
  · simp only [if_true]
    rw [if_pos (by constructor <;> omega)]


/-- For a positive `a / b` below `2 ^ 53` the exponent is not positive, and the unit in the
last place is below `(a / b + 1) * 2 ^ (-52)`, with `a / b` the integer part. -/
theorem ulpExp_small (a b : Nat) (ha : 0 < a) (hb : 0 < b) (hsmall : a < 2 ^ 53 * b) :
    ulpExp a b ≤ 0 ∧ 2 ^ 52 < (a / b + 1) * 2 ^ (-(ulpExp a b)).toNat := by
  obtain ⟨l, hl, hlo, hhi⟩ := ulpExp_spec a b ha hb
  have hbq : (0 : ℚ) < b := by exact_mod_cast hb
  have h2 : (2 : ℚ) ≠ 0 := by norm_num
  have h12 : (1 : ℚ) ≤ 2 := by norm_num
  have hq53 : (a : ℚ) / b < (2 : ℚ) ^ (53 : Int) := by
    rw [div_lt_iff₀ hbq]
    have : ((a : Nat) : ℚ) < ((2 ^ 53 * b : Nat) : ℚ) := by exact_mod_cast hsmall
    rw [Nat.cast_mul, Nat.cast_pow] at this
    have e53 : (2 : ℚ) ^ (53 : Int) = ((2 : Nat) : ℚ) ^ 53 := by norm_num
    rw [e53]
    exact this
  have hl53 : l < 53 := by
    by_contra hcon
    have : (2 : ℚ) ^ (53 : Int) ≤ (2 : ℚ) ^ l := zpow_le_zpow_right₀ h12 (by omega)
    linarith
  have he0 : ulpExp a b ≤ 0 := by rw [hl]; exact max_le (by omega) (by norm_num)
  have hxn : (a : ℚ) / b < ((a / b + 1 : Nat) : ℚ) := by
    rw [div_lt_iff₀ hbq]
    have : a < (a / b + 1) * b := by
      have := Nat.lt_mul_div_succ a hb
      rw [Nat.mul_comm]; exact this
    exact_mod_cast this
  have hpow : (2 : ℚ) ^ (ulpExp a b + 52) < ((a / b + 1 : Nat) : ℚ) := by
    rcases le_total (l - 52) (-1074) with hcase | hcase
    · have he : ulpExp a b = -1074 := by rw [hl]; exact max_eq_right hcase
      rw [he]
      have h1 : (2 : ℚ) ^ ((-1074 : Int) + 52) < (2 : ℚ) ^ (0 : Int) :=
        zpow_lt_zpow_right₀ (by norm_num) (by norm_num)
      have h2' : (1 : ℚ) ≤ ((a / b + 1 : Nat) : ℚ) := by
        exact_mod_cast Nat.succ_le_succ (Nat.zero_le _)
      rw [zpow_zero] at h1
      linarith
    · have he : ulpExp a b = l - 52 := by rw [hl]; exact max_eq_left hcase
      rw [he]
      have : l - 52 + 52 = l := by ring
      rw [this]
      linarith
  refine ⟨he0, ?_⟩
  generalize ulpExp a b = e at he0 hpow ⊢
  have hsplit : (2 : ℚ) ^ (e + 52) = (2 : ℚ) ^ (52 : Int) * (((2 ^ (-e).toNat : Nat) : ℚ))⁻¹ := by
    rw [two_zpow_toNat (-e) (by omega), ← zpow_neg, ← zpow_add₀ h2]
    congr 1
    ring
  have hSpos : (0 : ℚ) < ((2 ^ (-e).toNat : Nat) : ℚ) := by positivity
  rw [hsplit, ← div_eq_mul_inv, div_lt_iff₀ hSpos] at hpow
  have e52 : (2 : ℚ) ^ (52 : Int) = ((2 ^ 52 : Nat) : ℚ) := by norm_num
  rw [e52] at hpow
  exact_mod_cast hpow


/-- Rounding `a * S / b` to an integer and dividing by `S` gives the integer part of `a / b`
or the next integer, and the integer part when `a / b` is not within the relative distance
`2 ^ (-53)` below the next integer. -/
theorem round_small (a b S : Nat) (hb : 0 < b) (hS : 0 < S)
    (hE : 2 ^ 52 < (a / b + 1) * S) :
    (nearestEven (a * S) b / S = a / b ∨ nearestEven (a * S) b / S = a / b + 1)
    ∧ (a * 2 ^ 53 ≤ (a / b + 1) * (2 ^ 53 - 1) * b → nearestEven (a * S) b / S = a / b) := by
  obtain ⟨hup, hdown⟩ := nearestEven_spec (a * S) b hb
  generalize nearestEven (a * S) b = m at hup hdown ⊢
  have F1 : a / b * b ≤ a := Nat.div_mul_le_self a b
  have F2 : a < (a / b + 1) * b := by
    have := Nat.lt_mul_div_succ a hb
    rw [Nat.mul_comm]; exact this
  generalize a / b = n at F1 F2 hE ⊢
  have hlow : n * S ≤ m := by
    by_contra hcon
    have h1 : (m + 1) * b ≤ n * S * b := Nat.mul_le_mul_right b (by omega)
    have h2 : n * b * S ≤ a * S := Nat.mul_le_mul_right S F1
    have e1 : (m + 1) * b = m * b + b := by ring
    have e2 : n * S * b = n * b * S := by ring
    rw [e1, e2] at h1
    omega
  have hhigh : m ≤ (n + 1) * S := by
    by_contra hcon
    have h1 : ((n + 1) * S + 1) * b ≤ m * b := Nat.mul_le_mul_right b (by omega)
    have h2 : a * S < (n + 1) * b * S := Nat.mul_lt_mul_of_pos_right F2 hS
    have e1 : ((n + 1) * S + 1) * b = (n + 1) * b * S + b := by ring
    rw [e1] at h1
    omega
  have hge : n ≤ m / S := (Nat.le_div_iff_mul_le hS).mpr hlow
  have hle : m / S ≤ n + 1 := Nat.div_le_of_le_mul (by rw [Nat.mul_comm]; exact hhigh)
  refine ⟨by omega, ?_⟩
  intro hfar
  have hlt : m < (n + 1) * S := by
    by_contra hcon
    have h1 : (n + 1) * S * b ≤ m * b := Nat.mul_le_mul_right b (by omega)
    have h2 : a * 2 ^ 53 * S ≤ (n + 1) * (2 ^ 53 - 1) * b * S := Nat.mul_le_mul_right S hfar
    have e1 : a * 2 ^ 53 * S = a * S * 2 ^ 53 := by ring
    have e2 : (n + 1) * (2 ^ 53 - 1) * b * S = (n + 1) * S * b * (2 ^ 53 - 1) := by ring
    rw [e1, e2] at h2
    have h3 : 2 * ((n + 1) * S * b) ≤ 2 ^ 53 * b := by
      generalize (n + 1) * S * b = Kb at h1 h2
      generalize a * S = X at hup hdown h2
      generalize m * b = mb at hup hdown h1
      norm_num at h2 ⊢
      omega
    have h4 : 2 * ((n + 1) * S) * b ≤ 2 ^ 53 * b := by
      have e3 : 2 * ((n + 1) * S) * b = 2 * ((n + 1) * S * b) := by ring
      rw [e3]; exact h3
    have h5 : 2 * ((n + 1) * S) ≤ 2 ^ 53 := Nat.le_of_mul_le_mul_right h4 hb
    norm_num at h5 hE
    omega
  have : m / S < n + 1 := (Nat.div_lt_iff_lt_mul hS).mpr hlt
  omega


/-- On a number of magnitude below `2 ^ 53`, `getId` returns the value truncated toward zero
or the next integer away from zero, and the truncated value when the magnitude is not
within the relative distance `2 ^ (-53)` below the next integer. -/
theorem getId_small (lit : JsonNumber)
    (hsmall : lit.magnitude.1 < 2 ^ 53 * lit.magnitude.2) :
    ∃ t : Int, getId (Line.object (some (JsonValue.number lit)))
        = Except.ok (some { Kind := pb.IDKind.ID_Num t })
      ∧ (t = lit.trunc ∨ t = (if lit.mant < 0 then lit.trunc - 1 else lit.trunc + 1))
      ∧ (lit.magnitude.1 * 2 ^ 53
            ≤ (lit.magnitude.1 / lit.magnitude.2 + 1) * (2 ^ 53 - 1) * lit.magnitude.2 →
          t = lit.trunc) := by
  have hb := magnitude_pos lit
  by_cases ha : lit.magnitude.1 = 0
  · refine ⟨lit.trunc, ?_, Or.inl rfl, fun _ => rfl⟩
    exact getId_exact lit 0 0 (by norm_num) (by norm_num) (by rw [ha]; simp)
      (by rw [ha]; positivity)
  · have hapos : 0 < lit.magnitude.1 := Nat.pos_of_ne_zero ha
    obtain ⟨he0, hE⟩ := ulpExp_small lit.magnitude.1 lit.magnitude.2 hapos hb hsmall
    have hparse := parseFloat64_eq lit
    rw [if_neg (by omega)] at hparse
    have htoNat : (ulpExp lit.magnitude.1 lit.magnitude.2).toNat = 0 := by omega
    rw [htoNat, pow_zero, Nat.mul_one] at hparse
    obtain ⟨hnear, hfarImp⟩ := round_small lit.magnitude.1 lit.magnitude.2
      (2 ^ (-(ulpExp lit.magnitude.1 lit.magnitude.2)).toNat) hb (by positivity) hE
    have hn53 : lit.magnitude.1 / lit.magnitude.2 < 2 ^ 53 :=
      Nat.div_lt_of_lt_mul (by rw [Nat.mul_comm]; exact hsmall)
    have hmag : nearestEven
          (lit.magnitude.1 * 2 ^ (-(ulpExp lit.magnitude.1 lit.magnitude.2)).toNat)
          lit.magnitude.2 / 2 ^ (-(ulpExp lit.magnitude.1 lit.magnitude.2)).toNat
        < 2 ^ 63 := by
      rcases hnear with h | h <;> rw [h] <;> omega
    have hint := float64ToInt64_small (decide (lit.mant < 0)) _ _ he0 hmag
    have hdec : ∃ f, parseFloat64 lit = Except.ok f ∧ float64ToInt64 f
        = if decide (lit.mant < 0) = true then
            -((nearestEven
              (lit.magnitude.1 * 2 ^ (-(ulpExp lit.magnitude.1 lit.magnitude.2)).toNat)
              lit.magnitude.2 / 2 ^ (-(ulpExp lit.magnitude.1 lit.magnitude.2)).toNat : Nat) : Int)
          else
            ((nearestEven
              (lit.magnitude.1 * 2 ^ (-(ulpExp lit.magnitude.1 lit.magnitude.2)).toNat)
              lit.magnitude.2 / 2 ^ (-(ulpExp lit.magnitude.1 lit.magnitude.2)).toNat : Nat) : Int) :=
      ⟨_, hparse, hint⟩
    obtain ⟨f, hf, hint'⟩ := hdec
    refine ⟨float64ToInt64 f, ?_, ?_, ?_⟩
    · simp only [getId, jsonUnmarshal, hf]
    · rw [hint']
      rcases hnear with h | h
      · left
        rw [h]
        simp [JsonNumber.trunc]
      · right
        rw [h]
        by_cases hneg : lit.mant < 0
        · simp [JsonNumber.trunc, hneg]
          omega
        · simp [JsonNumber.trunc, hneg]
    · intro hfar
      rw [hint', hfarImp hfar]
      simp [JsonNumber.trunc]


/-- Comparing twice a remainder with its divisor, for two equal fractions. -/
theorem cross_lt (r₁ r₂ B₁ B₂ : Nat) (h₁ : 0 < B₁) (h₂ : 0 < B₂) (hr : r₁ * B₂ = r₂ * B₁) :
    2 * r₁ < B₁ ↔ 2 * r₂ < B₂ := by
  have e₁ : 2 * r₁ * B₂ = 2 * (r₁ * B₂) := by ring
  have e₂ : 2 * r₂ * B₁ = 2 * (r₂ * B₁) := by ring
  have e₃ : B₂ * B₁ = B₁ * B₂ := Nat.mul_comm _ _
  constructor
  · intro h
    by_contra hc
    have k₁ : 2 * r₁ * B₂ < B₁ * B₂ := Nat.mul_lt_mul_of_pos_right h h₂
    have k₂ : B₂ * B₁ ≤ 2 * r₂ * B₁ := Nat.mul_le_mul_right B₁ (by omega)
    rw [e₁] at k₁
    rw [e₂, e₃] at k₂
    omega
  · intro h
    by_contra hc
    have k₁ : 2 * r₂ * B₁ < B₂ * B₁ := Nat.mul_lt_mul_of_pos_right h h₁
    have k₂ : B₁ * B₂ ≤ 2 * r₁ * B₂ := Nat.mul_le_mul_right B₂ (by omega)
    rw [e₂, e₃] at k₁
    rw [e₁] at k₂
    omega

/-- The comparison of `cross_lt` in the other direction. -/
theorem cross_gt (r₁ r₂ B₁ B₂ : Nat) (h₁ : 0 < B₁) (h₂ : 0 < B₂) (hr : r₁ * B₂ = r₂ * B₁) :
    B₁ < 2 * r₁ ↔ B₂ < 2 * r₂ := by
  have e₁ : 2 * r₁ * B₂ = 2 * (r₁ * B₂) := by ring
  have e₂ : 2 * r₂ * B₁ = 2 * (r₂ * B₁) := by ring
  have e₃ : B₂ * B₁ = B₁ * B₂ := Nat.mul_comm _ _
  constructor
  · intro h
    by_contra hc
    have k₁ : B₁ * B₂ < 2 * r₁ * B₂ := Nat.mul_lt_mul_of_pos_right h h₂
    have k₂ : 2 * r₂ * B₁ ≤ B₂ * B₁ := Nat.mul_le_mul_right B₁ (by omega)
    rw [e₁] at k₁
    rw [e₂, e₃] at k₂
    omega
  · intro h
    by_contra hc
    have k₁ : B₂ * B₁ < 2 * r₂ * B₁ := Nat.mul_lt_mul_of_pos_right h h₁
    have k₂ : 2 * r₁ * B₂ ≤ B₁ * B₂ := Nat.mul_le_mul_right B₂ (by omega)
    rw [e₂, e₃] at k₁
    rw [e₁] at k₂
    omega

/-- Rounding depends on the fraction only. -/
theorem nearestEven_congr (A₁ B₁ A₂ B₂ : Nat) (h₁ : 0 < B₁) (h₂ : 0 < B₂)
    (h : A₁ * B₂ = A₂ * B₁) : nearestEven A₁ B₁ = nearestEven A₂ B₂ := by
  have hq : A₁ / B₁ = A₂ / B₂ := by
    calc A₁ / B₁ = (A₁ * B₂) / (B₁ * B₂) := (Nat.mul_div_mul_right A₁ B₁ h₂).symm
      _ = (A₂ * B₁) / (B₂ * B₁) := by rw [h, Nat.mul_comm B₁ B₂]
      _ = A₂ / B₂ := Nat.mul_div_mul_right A₂ B₂ h₁
  have hA₁ : A₁ = B₁ * (A₁ / B₁) + A₁ % B₁ := (Nat.div_add_mod A₁ B₁).symm
  have hA₂ : A₂ = B₂ * (A₂ / B₂) + A₂ % B₂ := (Nat.div_add_mod A₂ B₂).symm
  have hr : A₁ % B₁ * B₂ = A₂ % B₂ * B₁ := by
    have e₁ : A₁ * B₂ = B₁ * B₂ * (A₂ / B₂) + A₁ % B₁ * B₂ := by
      conv_lhs => rw [hA₁, hq]
      ring
    have e₂ : A₂ * B₁ = B₁ * B₂ * (A₂ / B₂) + A₂ % B₂ * B₁ := by
      conv_lhs => rw [hA₂]
      ring
    rw [e₁, e₂] at h
    exact Nat.add_left_cancel h
  have c₁ : 2 * (A₁ % B₁) < B₁ ↔ 2 * (A₂ % B₂) < B₂ := cross_lt _ _ _ _ h₁ h₂ hr
  have c₂ : B₁ < 2 * (A₁ % B₁) ↔ B₂ < 2 * (A₂ % B₂) := cross_gt _ _ _ _ h₁ h₂ hr
  unfold nearestEven
  simp only [hq, c₁, c₂]

/-- The exponent depends on the fraction only. -/
theorem ulpExp_congr (a₁ b₁ a₂ b₂ : Nat) (ha₁ : 0 < a₁) (hb₁ : 0 < b₁) (ha₂ : 0 < a₂)
    (hb₂ : 0 < b₂) (h : a₁ * b₂ = a₂ * b₁) : ulpExp a₁ b₁ = ulpExp a₂ b₂ := by
  obtain ⟨l₁, hl₁, hlo₁, hhi₁⟩ := ulpExp_spec a₁ b₁ ha₁ hb₁
  obtain ⟨l₂, hl₂, hlo₂, hhi₂⟩ := ulpExp_spec a₂ b₂ ha₂ hb₂
  have hbq₁ : (b₁ : ℚ) ≠ 0 := by exact_mod_cast hb₁.ne'
  have hbq₂ : (b₂ : ℚ) ≠ 0 := by exact_mod_cast hb₂.ne'
  have hx : (a₁ : ℚ) / b₁ = (a₂ : ℚ) / b₂ := by
    rw [div_eq_div_iff hbq₁ hbq₂]
    exact_mod_cast h
  rw [hx] at hlo₁ hhi₁
  have h12 : (1 : ℚ) < 2 := by norm_num
  have hlt₁ : l₁ < l₂ + 1 := (zpow_lt_zpow_iff_right₀ h12).mp (lt_of_le_of_lt hlo₁ hhi₂)
  have hlt₂ : l₂ < l₁ + 1 := (zpow_lt_zpow_iff_right₀ h12).mp (lt_of_le_of_lt hlo₂ hhi₁)
  have : l₁ = l₂ := by omega
  rw [hl₁, hl₂, this]


/-- Two number literals of the same sign and value, in whatever decimal form, give the
same identifier. -/
theorem getId_same_value (lit₁ lit₂ : JsonNumber) (hsign : lit₁.mant < 0 ↔ lit₂.mant < 0)
    (hval : lit₁.magnitude.1 * lit₂.magnitude.2 = lit₂.magnitude.1 * lit₁.magnitude.2) :
    getId (Line.object (some (JsonValue.number lit₁)))
      = getId (Line.object (some (JsonValue.number lit₂))) := by
  have hb₁ := magnitude_pos lit₁
  have hb₂ := magnitude_pos lit₂
  by_cases ha : lit₁.magnitude.1 = 0
  · have ha₂ : lit₂.magnitude.1 = 0 := by
      rw [ha, Nat.zero_mul] at hval
      rcases Nat.mul_eq_zero.mp hval.symm with h | h
      · exact h
      · omega
    rw [getId_exact lit₁ 0 0 (by norm_num) (by norm_num) (by rw [ha]; simp)
        (by rw [ha]; positivity),
      getId_exact lit₂ 0 0 (by norm_num) (by norm_num) (by rw [ha₂]; simp)
        (by rw [ha₂]; positivity)]
    simp [JsonNumber.trunc, ha, ha₂]
  · have ha₁ : 0 < lit₁.magnitude.1 := Nat.pos_of_ne_zero ha
    have ha₂ : 0 < lit₂.magnitude.1 := by
      rcases Nat.eq_zero_or_pos lit₂.magnitude.1 with h | h
      · rw [h, Nat.zero_mul] at hval
        rcases Nat.mul_eq_zero.mp hval with h' | h' <;> omega
      · exact h
    have he := ulpExp_congr _ _ _ _ ha₁ hb₁ ha₂ hb₂ hval
    have hm : nearestEven
          (lit₁.magnitude.1 * 2 ^ (-(ulpExp lit₂.magnitude.1 lit₂.magnitude.2)).toNat)
          (lit₁.magnitude.2 * 2 ^ (ulpExp lit₂.magnitude.1 lit₂.magnitude.2).toNat)
        = nearestEven
          (lit₂.magnitude.1 * 2 ^ (-(ulpExp lit₂.magnitude.1 lit₂.magnitude.2)).toNat)
          (lit₂.magnitude.2 * 2 ^ (ulpExp lit₂.magnitude.1 lit₂.magnitude.2).toNat) := by
      apply nearestEven_congr _ _ _ _ (by positivity) (by positivity)
      generalize 2 ^ (-(ulpExp lit₂.magnitude.1 lit₂.magnitude.2)).toNat = S
      generalize 2 ^ (ulpExp lit₂.magnitude.1 lit₂.magnitude.2).toNat = T
      calc lit₁.magnitude.1 * S * (lit₂.magnitude.2 * T)
          = lit₁.magnitude.1 * lit₂.magnitude.2 * (S * T) := by ring
        _ = lit₂.magnitude.1 * lit₁.magnitude.2 * (S * T) := by rw [hval]
        _ = lit₂.magnitude.1 * S * (lit₁.magnitude.2 * T) := by ring
    have hd : decide (lit₁.mant < 0) = decide (lit₂.mant < 0) := decide_eq_decide.mpr hsign
    have hparse : parseFloat64 lit₁ = parseFloat64 lit₂ := by
      rw [parseFloat64_eq lit₁, parseFloat64_eq lit₂, he, hm, hd]
    simp only [getId, jsonUnmarshal, hparse]

/-- C14, counterexample: the `id` `0.99999999999999999999`, of magnitude below `2 ^ 63`,
truncates to `0`, but `getId` returns the identifier `1`: the number is decoded to the
nearest `float64`, which is `1`, before the fraction is discarded. -/
theorem C14_fraction_rounded_before_truncation :
    (JsonNumber.magnitude { mant := 99999999999999999999, exp := -20 }).1
      < 2 ^ 63 * (JsonNumber.magnitude { mant := 99999999999999999999, exp := -20 }).2
    ∧ JsonNumber.trunc { mant := 99999999999999999999, exp := -20 } = 0
    ∧ getId (Line.object (some (JsonValue.number { mant := 99999999999999999999, exp := -20 })))
      = Except.ok (some { Kind := pb.IDKind.ID_Num 1 }) :=
  ⟨by decide, by decide, rfl⟩

/-- C14, as amended: for a line whose `id` is a number literal, in any decimal form, of
magnitude below `2 ^ 63`: when the magnitude is below `2 ^ 53`, `getId` returns the
integer-kind identifier whose value is the number truncated toward zero or the next integer
away from zero, and it is the truncated value whenever the magnitude is not within the
relative distance `2 ^ (-53)` below that next integer; when the number is a `float64` (its
magnitude is `M * 2 ^ E` with `M < 2 ^ 53` and `-1074 ≤ E`), `getId` returns the value
truncated toward zero; and every literal of the same sign and value gives the same
identifier. -/
theorem C14_number_id_truncated (lit : JsonNumber)
    (hrange : lit.magnitude.1 < 2 ^ 63 * lit.magnitude.2) :
    (lit.magnitude.1 < 2 ^ 53 * lit.magnitude.2 →
      ∃ t : Int, getId (Line.object (some (JsonValue.number lit)))
          = Except.ok (some { Kind := pb.IDKind.ID_Num t })
        ∧ (t = lit.trunc ∨ t = (if lit.mant < 0 then lit.trunc - 1 else lit.trunc + 1))
        ∧ (lit.magnitude.1 * 2 ^ 53
              ≤ (lit.magnitude.1 / lit.magnitude.2 + 1) * (2 ^ 53 - 1) * lit.magnitude.2 →
            t = lit.trunc))
    ∧ (∀ (M : Nat) (E : Int), M < 2 ^ 53 → -1074 ≤ E →
        (lit.magnitude.1 : ℚ) / lit.magnitude.2 = (M : ℚ) * (2 : ℚ) ^ E →
        getId (Line.object (some (JsonValue.number lit)))
          = Except.ok (some { Kind := pb.IDKind.ID_Num lit.trunc }))
    ∧ (∀ lit₂ : JsonNumber, (lit₂.mant < 0 ↔ lit.mant < 0) →
        lit₂.magnitude.1 * lit.magnitude.2 = lit.magnitude.1 * lit₂.magnitude.2 →
        getId (Line.object (some (JsonValue.number lit₂)))
          = getId (Line.object (some (JsonValue.number lit)))) :=
  ⟨getId_small lit, fun M E hM hE hrep => getId_exact lit M E hM hE hrep hrange,
    fun lit₂ hsign hval => getId_same_value lit₂ lit hsign hval⟩

/-- C14, witness: the identifiers `1.1` and `-3.14` are sent as `1` and `-3`, the
identifier `2 ^ 60` as itself, and `1.5` gives the same identifier as `1.50`. -/
theorem C14_number_id_truncated_witness :
    getId (Line.object (some (JsonValue.number { mant := 11, exp := -1 })))
      = Except.ok (some { Kind := pb.IDKind.ID_Num 1 })
    ∧ getId (Line.object (some (JsonValue.number { mant := -314, exp := -2 })))
      = Except.ok (some { Kind := pb.IDKind.ID_Num (-3) })
    ∧ getId (Line.object (some (JsonValue.number { mant := 1152921504606846976, exp := 0 })))
      = Except.ok (some { Kind := pb.IDKind.ID_Num 1152921504606846976 })
    ∧ getId (Line.object (some (JsonValue.number { mant := 15, exp := -1 })))
      = getId (Line.object (some (JsonValue.number { mant := 150, exp := -2 }))) :=
  ⟨match (C14_number_id_truncated { mant := 11, exp := -1 } (by decide)).1 (by decide) with
    | ⟨_, hget, _, hfar⟩ => hget.trans (by rw [hfar (by decide)]; rfl),
   match (C14_number_id_truncated { mant := -314, exp := -2 } (by decide)).1 (by decide) with
    | ⟨_, hget, _, hfar⟩ => hget.trans (by rw [hfar (by decide)]; rfl),
   ((C14_number_id_truncated { mant := 1152921504606846976, exp := 0 } (by decide)).2.1
      4503599627370496 8 (by decide) (by decide)
      (by rw [show JsonNumber.magnitude { mant := 1152921504606846976, exp := 0 }
            = (1152921504606846976, 1) from rfl]
          norm_num)).trans rfl,
   (C14_number_id_truncated { mant := 150, exp := -2 } (by decide)).2.2
      { mant := 15, exp := -1 } (by decide) (by decide)⟩

end Client

end McpGrpc
